import Mathlib

/-!
# Smart traffic optimizer: the browser front end (`frontend/app.js`) and the routing contract

The front end is embedded as state-passing functions over the part of the page it reads and
writes (`DomState`).  Every `fetch` is logged in the state and its outcome is an argument of the
handler, so a handler is a pure function of the page state and of what the network answers.
Numbers are doubles: `parseInt`, `parseFloat` and the template literal of an id round as
JavaScript does.  The routing engine behind `POST /path` is not part of the source and is modelled
from the specification.
-/

set_option exponentiation.threshold 4096

namespace SmartTraffic

/-! ## JavaScript numbers and strings -/

/-- A JavaScript Number: `NaN`, an infinity, or the finite double `numerator / 2 ^ scale`, kept
in lowest terms (`scale = 0` for an integer, otherwise `numerator` odd), so that two finite
Numbers are the same constructor exactly when they are the same double.  The sign of zero is not
tracked (`-0 === 0`, and `JSON.stringify` writes `0` for both). -/
inductive JSNumber where
  | nan
  | infinity (negative : Bool)
  | finite (numerator : Int) (scale : Nat)
deriving DecidableEq

/-- Number of binary digits of `n` (`fuel` bounds them). -/
def bitLengthAux : Nat → Nat → Nat
  | 0, _ => 0
  | fuel + 1, n => if n = 0 then 0 else bitLengthAux fuel (n / 2) + 1

/-- Number of binary digits of `n`; 0 for 0. -/
def bitLength (n : Nat) : Nat := bitLengthAux n n

/-- The integer nearest to `num / den`, the even one when two are equally near. -/
def roundQuotient (num den : Nat) : Nat :=
  let q := num / den
  let r := num % den
  if den < 2 * r ∨ (2 * r = den ∧ q % 2 = 1) then q + 1 else q

/-- The exponent `floor (log2 (p / q))` of a positive ratio. -/
def floorLog2Ratio (p q : Nat) : Int :=
  let t : Int := (bitLength p : Int) - (bitLength q : Int)
  match t with
  | Int.ofNat e => if q * 2 ^ e ≤ p then t else t - 1
  | Int.negSucc e => if q ≤ p * 2 ^ (e + 1) then t else t - 1

/-- The fraction `m / 2 ^ scale` in lowest terms. -/
def lowestTerms : Nat → Nat → Nat × Nat
  | m, 0 => (m, 0)
  | m, scale + 1 => if m % 2 = 0 then lowestTerms (m / 2) scale else (m, scale + 1)

/-- The Number for the mathematical value `± p / q`: the nearest double (53 significant bits,
least unit `2^-1074`, ties to even), an infinity from `2^1024` on. -/
def toNumber (negative : Bool) (p q : Nat) : JSNumber :=
  if p = 0 then .finite 0 0
  else
    let sign : Int := if negative then -1 else 1
    match max (floorLog2Ratio p q - 52) (-1074) with
    | Int.ofNat e =>
      let m := roundQuotient p (q * 2 ^ e) * 2 ^ e
      if 2 ^ 1024 ≤ m then .infinity negative else .finite (sign * (m : Int)) 0
    | Int.negSucc e =>
      let (m, scale) := lowestTerms (roundQuotient (p * 2 ^ (e + 1)) q) (e + 1)
      .finite (sign * (m : Int)) scale

/-- The Number for the mathematical value `mantissa * 10 ^ exponent` of a decimal literal. -/
def JSNumber.ofMathValue (mantissa : Int) (exponent : Int) : JSNumber :=
  match exponent with
  | Int.ofNat e => toNumber (decide (mantissa < 0)) (mantissa.natAbs * 10 ^ e) 1
  | Int.negSucc e => toNumber (decide (mantissa < 0)) mantissa.natAbs (10 ^ (e + 1))

/-- The Number for an integer, as `JSON.parse` makes it from an integer literal: the integer
itself when it is a double, otherwise the nearest double. -/
def JSNumber.ofInt (n : Int) : JSNumber := toNumber (decide (n < 0)) n.natAbs 1

/-- Unary minus on Numbers. -/
def JSNumber.neg : JSNumber → JSNumber
  | .nan => .nan
  | .infinity negative => .infinity (!negative)
  | .finite m scale => .finite (-m) scale

/-- The integer `n` is a Number: an integer-valued double. -/
def isNumber (n : Int) : Prop := JSNumber.ofInt n = .finite n 0

instance (n : Int) : Decidable (isNumber n) :=
  inferInstanceAs (Decidable (JSNumber.ofInt n = .finite n 0))

/-- White space and line terminators removed by `TrimString` (code points). -/
def isWhiteSpace (c : Char) : Bool :=
  decide (c.toNat ∈ [0x09, 0x0A, 0x0B, 0x0C, 0x0D, 0x20, 0xA0, 0x1680, 0x2000, 0x2001, 0x2002,
    0x2003, 0x2004, 0x2005, 0x2006, 0x2007, 0x2008, 0x2009, 0x200A, 0x2028, 0x2029, 0x202F,
    0x205F, 0x3000, 0xFEFF])

/-- Leading white space stripped, as `parseInt` and `parseFloat` do first. -/
def trimStart (s : List Char) : List Char := s.dropWhile isWhiteSpace

/-- Value of a character as a digit in a radix up to 36. -/
def digitValue (c : Char) : Option Nat :=
  if 48 ≤ c.toNat ∧ c.toNat ≤ 57 then some (c.toNat - 48)
  else if 97 ≤ c.toNat ∧ c.toNat ≤ 122 then some (c.toNat - 97 + 10)
  else if 65 ≤ c.toNat ∧ c.toNat ≤ 90 then some (c.toNat - 65 + 10)
  else none

/-- Value of a character as a digit of radix `R`, when it is one. -/
def radixDigit (R : Nat) (c : Char) : Option Nat :=
  match digitValue c with
  | some d => if d < R then some d else none
  | none => none

/-- The longest run of radix-`R` digits at the start of `s`, as digit values. -/
def takeDigits (R : Nat) : List Char → List Nat
  | [] => []
  | c :: cs =>
    match radixDigit R c with
    | some d => d :: takeDigits R cs
    | none => []

/-- What follows the longest run of radix-`R` digits at the start of `s`. -/
def dropDigits (R : Nat) : List Char → List Char
  | [] => []
  | c :: cs =>
    match radixDigit R c with
    | some _ => dropDigits R cs
    | none => c :: cs

/-- The integer written by a list of radix-`R` digits, most significant first. -/
def digitsValue (R : Nat) (ds : List Nat) : Nat := ds.foldl (fun acc d => acc * R + d) 0

/-- The sign read by `parseInt` and `parseFloat`, and the text after it. -/
def readSign : List Char → Int × List Char
  | [] => (1, [])
  | c :: cs => if c = '-' then (-1, cs) else if c = '+' then (1, cs) else (1, c :: cs)

/-- The radix chosen by `parseInt` without a radix argument, and the text after a hex marker. -/
def readRadix : List Char → Nat × List Char
  | c₀ :: c₁ :: cs =>
    if c₀ = '0' ∧ (c₁ = 'x' ∨ c₁ = 'X') then (16, cs) else (10, c₀ :: c₁ :: cs)
  | s => (10, s)

/-- The global `parseInt(string)` (no radix argument): white space, sign, hex marker, then the
longest run of digits; `NaN` when that run is empty. -/
def parseInt (string : String) : JSNumber :=
  let S := trimStart string.data
  let (sign, S) := readSign S
  let (R, S) := readRadix S
  let Z := takeDigits R S
  if Z = [] then .nan else JSNumber.ofInt (sign * (digitsValue R Z : Int))

/-- Does `s` start with `p`? -/
def startsWith (p : List Char) (s : List Char) : Bool := p.isPrefixOf s

/-- The exponent part `e`/`E`, optional sign, digits at the start of `s`; 0 when there is none. -/
def readExponent : List Char → Int
  | [] => 0
  | c :: cs =>
    if c = 'e' ∨ c = 'E' then
      let (sign, rest) := readSign cs
      let ds := takeDigits 10 rest
      if ds = [] then 0 else sign * (digitsValue 10 ds : Int)
    else 0

/-- The global `parseFloat(string)`: the longest prefix that is a decimal literal. -/
def parseFloat (string : String) : JSNumber :=
  let S := trimStart string.data
  let (sign, S) := readSign S
  if startsWith "Infinity".data S then .infinity (decide (sign < 0))
  else
    let intDigits := takeDigits 10 S
    let afterInt := dropDigits 10 S
    match afterInt with
    | '.' :: afterDot =>
      let fracDigits := takeDigits 10 afterDot
      if intDigits = [] ∧ fracDigits = [] then .nan
      else
        JSNumber.ofMathValue (sign * (digitsValue 10 (intDigits ++ fracDigits) : Int))
          (readExponent (dropDigits 10 afterDot) - fracDigits.length)
    | _ =>
      if intDigits = [] then .nan
      else JSNumber.ofMathValue (sign * (digitsValue 10 intDigits : Int)) (readExponent afterInt)

/-- Decimal digits of `n`, most significant first (`fuel` bounds the number of digits). -/
def decimalDigitsAux : Nat → Nat → List Nat → List Nat
  | 0, _, acc => acc
  | fuel + 1, n, acc =>
    if n < 10 then n :: acc else decimalDigitsAux fuel (n / 10) (n % 10 :: acc)

/-- Decimal digits of `n`, most significant first; `[0]` for 0. -/
def decimalDigits (n : Nat) : List Nat := decimalDigitsAux (n + 1) n []

/-- The character of a decimal digit. -/
def digitChar (d : Nat) : Char := Char.ofNat (48 + d)

/-- A digit list without its trailing zeros. -/
def dropTrailingZeros (ds : List Nat) : List Nat := (ds.reverse.dropWhile (· = 0)).reverse

/-- Does the integer `v` become the same Number as `n`? -/
def sameNumber (v n : Nat) : Bool := decide (JSNumber.ofInt v = JSNumber.ofInt n)

/-- The search of `Number::toString` for the fewest significant digits: for the trailing-zero
counts `j`, `j - 1`, ..., 1 in turn, the two multiples of `10 ^ j` around `n` are tried, and the
first count at which one of them is the same Number as `n` wins (the nearer one when both are,
the one with the even quotient when equally near); otherwise `n` itself. -/
def shortestAux (n : Nat) : Nat → Nat
  | 0 => n
  | j + 1 =>
    let p := 10 ^ (j + 1)
    let lo := n / p * p
    let hi := lo + p
    if sameNumber lo n ∧ sameNumber hi n then
      if n - lo < hi - n ∨ (n - lo = hi - n ∧ (n / p) % 2 = 0) then lo else hi
    else if sameNumber lo n then lo
    else if sameNumber hi n then hi
    else shortestAux n j

/-- The integer with the fewest significant digits that is the same Number as `n`. -/
def shortest (n : Nat) : Nat := shortestAux n ((decimalDigits n).length - 1)

/-- The operation `Number::toString` (radix 10) on a non-negative integer-valued Number `n`: the
digits of `shortest n`, plain when there are at most 21 of them, in exponential form otherwise. -/
def natToString (n : Nat) : List Char :=
  let v := shortest n
  let ds := decimalDigits v
  if v < 10 ^ 21 then ds.map digitChar
  else
    let e := (decimalDigits (ds.length - 1)).map digitChar
    match dropTrailingZeros ds with
    | [] => ['0']
    | [d] => digitChar d :: 'e' :: '+' :: e
    | d :: rest => digitChar d :: '.' :: (rest.map digitChar ++ 'e' :: '+' :: e)

/-- The text of `${junction.id}` for a junction whose id was the integer `n` in the JSON answer:
`Number::toString` of the Number that `JSON.parse` made of it. -/
def numberToString (n : Int) : String :=
  match JSNumber.ofInt n with
  | .finite m _ =>
    if m < 0 then String.mk ('-' :: natToString m.natAbs) else String.mk (natToString m.natAbs)
  | .infinity negative => if negative then "-Infinity" else "Infinity"
  | .nan => "NaN"

/-- What `JSON.stringify` writes for a Number field. -/
inductive JsonNumber where
  | null
  | number (numerator : Int) (scale : Nat)
deriving DecidableEq

/-- The function `JSON.stringify` on a Number: `NaN` and the infinities become `null`. -/
def jsonStringifyNumber : JSNumber → JsonNumber
  | .nan => .null
  | .infinity _ => .null
  | .finite m scale => .number m scale


/-! ## The page state and the effects of the handlers -/

/-- A button of the page: the two properties the handlers write. -/
structure Button where
  disabled : Bool
  textContent : String
deriving DecidableEq

/-- The second argument of `showToast`. -/
inductive ToastType where
  | success
  | error
deriving DecidableEq

/-- The first argument of `showToast`.  The success text of `updateTraffic` is kept as the values
its template literal is built from (the junction names are looked up from the two selected values,
and the multiplier is printed as a fractional Number). -/
inductive ToastMessage where
  | text (s : String)
  | trafficUpdated (fromId toId : String) (multiplier : JSNumber)
deriving DecidableEq

/-- One call of `showToast`. -/
structure Toast where
  message : ToastMessage
  type : ToastType
deriving DecidableEq

/-- The `body` option of a `fetch` call, before `JSON.stringify`. -/
inductive RequestBody where
  | empty
  | path (source destination : JSNumber)
  | traffic (from_ to_ multiplier : JSNumber)
deriving DecidableEq

/-- One call of `fetch`: method, path under `API_BASE`, body. -/
structure Request where
  method : String
  url : String
  body : RequestBody
deriving DecidableEq

/-- The part of the page the script reads and writes.  `toasts` and `requests` log the calls of
`showToast` and `fetch`, oldest first; `totalTime` and `totalDistance` hold the Number whose
`toFixed(1)` text is shown. -/
structure DomState where
  sourceSelect : String
  destSelect : String
  trafficFrom : String
  trafficTo : String
  trafficLevel : String
  findRouteBtn : Button
  updateTrafficBtn : Button
  toasts : List Toast
  requests : List Request
  consoleErrors : Nat
  resultsCardDisplay : String
  totalTime : Option JSNumber
  totalDistance : Option JSNumber
  pathDisplay : String
  serverStatusClasses : List String
  statusText : String
deriving DecidableEq

/-- How a block of statements ends: normally with a value, or by a thrown exception.  Either way
the writes made so far stay. -/
inductive Completion (α : Type) where
  | normal (value : α) (st : DomState)
  | throw (st : DomState)

/-- A block of statements acting on the page. -/
def JS (α : Type) : Type := DomState → Completion α

/-- A block that ends at once with a value. -/
def JS.pure {α : Type} (a : α) : JS α := fun st => .normal a st

/-- Sequencing: a throw in the first block skips the second. -/
def JS.bind {α β : Type} (x : JS α) (f : α → JS β) : JS β := fun st =>
  match x st with
  | .normal a st₁ => f a st₁
  | .throw st₁ => .throw st₁

instance : Monad JS where
  pure := JS.pure
  bind := JS.bind

/-- A `throw`, or an operation that raises a `TypeError`. -/
def JS.throwError {α : Type} : JS α := fun st => .throw st

/-- Read the page. -/
def JS.get : JS DomState := fun st => .normal st st

/-- Write the page. -/
def JS.modify (f : DomState → DomState) : JS Unit := fun st => .normal () (f st)

/-- The statement `try { body } catch (error) { handler } finally { finalizer }` with a handler
and a finalizer that do not throw; the page after it. -/
def tryCatchFinally (body : JS Unit) (handler finalizer : DomState → DomState)
    (st : DomState) : DomState :=
  match body st with
  | .normal _ st₁ => finalizer st₁
  | .throw st₁ => finalizer (handler st₁)

/-- The statement `try { body } catch (error) { handler }`. -/
def tryCatch (body : JS Unit) (handler : DomState → DomState) (st : DomState) : DomState :=
  match body st with
  | .normal _ st₁ => st₁
  | .throw st₁ => handler st₁

/-- The function `showToast(message, type)`: the toast is logged (its removal after 3 s is not
modelled). -/
def showToast (message : ToastMessage) (type : ToastType) (st : DomState) : DomState :=
  { st with toasts := st.toasts ++ [⟨message, type⟩] }

/-- The call `console.error(...)`. -/
def consoleError (st : DomState) : DomState :=
  { st with consoleErrors := st.consoleErrors + 1 }

/-- What the network does with one request: `fetch` rejects, or the response arrives and its
`json()` rejects, or the body parses to `data` (`none` for the JSON value `null`). -/
inductive FetchOutcome (α : Type) where
  | rejected
  | notJson
  | json (data : Option α)

/-- The two statements `const response = await fetch(...)` and
`const data = await response.json()`: the request is logged, then the outcome decides. -/
def fetchJson {α : Type} (request : Request) (outcome : FetchOutcome α) : JS (Option α) :=
  fun st =>
    let st₁ := { st with requests := st.requests ++ [request] }
    match outcome with
    | .rejected => .throw st₁
    | .notJson => .throw st₁
    | .json data => .normal data st₁

/-- Property access on `data`: a `TypeError` when `data` is `null`. -/
def deref {α : Type} : Option α → JS α
  | some a => JS.pure a
  | none => JS.throwError

/-- The expression `a || b` for a string or absent `a`: an absent or empty `a` is falsy. -/
def orDefault (a : Option String) (b : String) : String :=
  match a with
  | some s => if s = "" then b else s
  | none => b

/-! ## Junctions and the dropdowns -/

/-- A junction as `/junctions` and `/path` deliver it: the integer id and the name (the text of
`${junction.name}`). -/
structure Junction where
  id : Int
  name : String
deriving DecidableEq

/-- The `value` attribute that `populateDropdowns` writes for a junction: the text of
`${junction.id}`. -/
def optionValue (junction : Junction) : String := numberToString junction.id

/-- The template literal of `populateDropdowns`: the markup appended for one junction, with the
name inserted as it is. -/
def optionHtml (junction : Junction) : String :=
  "<option value=\"" ++ optionValue junction ++ "\">" ++ junction.name ++ "</option>"

/-- The function `populateDropdowns`: the pieces of markup written to the `innerHTML` of each of
the four selects, in order (the placeholder, then one piece per junction).  What the browser
makes of them is not modelled. -/
def populateDropdowns (junctions : List Junction) : List String :=
  "<option value=\"\">Select...</option>" :: junctions.map optionHtml

/-! ## Route search -/

/-- The body of a `POST /path` answer, with the field types of the API contract: `message` is the
string in `data.message` (`none` when the field is absent or `null`; a message of another type is
not modelled), `totalTime` and `estimatedDistance` are `none` when they are not Numbers, `path` is
`none` when it is not an array and its entries are `none` for `null`. -/
structure PathResponse where
  success : Bool
  message : Option String
  path : Option (List (Option Junction))
  totalTime : Option JSNumber
  estimatedDistance : Option JSNumber

/-- The markup of one step of the path. -/
def stepHtml (name : String) : String := "<div class=\"path-step\">" ++ name ++ "</div>"

/-- The markup of the arrow between two steps. -/
def arrowHtml : String := "<div class=\"path-arrow\">→</div>"

/-- The callback of `data.path.map` in `displayRoute`, with `length = data.path.length`. -/
def pathItemHtml (length : Nat) (index : Nat) (junction : Junction) : String :=
  stepHtml junction.name ++ (if (index : Int) < (length : Int) - 1 then arrowHtml else "")

/-- The markup `data.path.map(...).join('')` for a path of junctions. -/
def pathHtml (path : List Junction) : String :=
  String.join (path.enum.map fun (index, junction) => pathItemHtml path.length index junction)

/-- All entries of the path are junction objects. -/
def allJunctions : List (Option Junction) → Option (List Junction)
  | [] => some []
  | none :: _ => none
  | some j :: rest => (allJunctions rest).map (j :: ·)

/-- The function `displayRoute(data)`. -/
def displayRoute (data : PathResponse) : JS Unit := do
  JS.modify fun st => { st with resultsCardDisplay := "block" }
  let totalTime ← deref data.totalTime
  JS.modify fun st => { st with totalTime := some totalTime }
  let estimatedDistance ← deref data.estimatedDistance
  JS.modify fun st => { st with totalDistance := some estimatedDistance }
  let path ← deref data.path
  let junctions ← deref (allJunctions path)
  JS.modify fun st => { st with pathDisplay := pathHtml junctions }

/-- The `try` block of `findRoute`. -/
def findRouteTry (sourceId destId : String) (outcome : FetchOutcome PathResponse) : JS Unit := do
  let data ← fetchJson ⟨"POST", "/path", .path (parseInt sourceId) (parseInt destId)⟩ outcome
  let data ← deref data
  if data.success then
    displayRoute data
    JS.modify (showToast (.text "Route found successfully!") .success)
  else
    JS.modify (showToast (.text (orDefault data.message "No route found")) .error)

/-- The click handler `findRoute`, given what the network answers. -/
def findRoute (outcome : FetchOutcome PathResponse) (st : DomState) : DomState :=
  let sourceId := st.sourceSelect
  let destId := st.destSelect
  if sourceId = "" ∨ destId = "" then
    showToast (.text "Please select both source and destination") .error st
  else if sourceId = destId then
    showToast (.text "Source and destination cannot be the same!") .error st
  else
    let st₁ := { st with findRouteBtn := ⟨true, "Finding Route..."⟩ }
    tryCatchFinally (findRouteTry sourceId destId outcome)
      (fun s => showToast (.text "Failed to find route") .error (consoleError s))
      (fun s => { s with findRouteBtn := ⟨false, "Find Shortest Route"⟩ })
      st₁

/-! ## Traffic update -/

/-- The body of a `POST /traffic` answer: `message` is the string in `data.message` (`none` when
the field is absent or `null`; a message of another type is not modelled). -/
structure TrafficResponse where
  success : Bool
  message : Option String

/-- The `try` block of `updateTraffic`. -/
def updateTrafficTry (fromId toId : String) (multiplier : JSNumber)
    (outcome : FetchOutcome TrafficResponse) : JS Unit := do
  let data ← fetchJson
    ⟨"POST", "/traffic", .traffic (parseInt fromId) (parseInt toId) multiplier⟩ outcome
  let data ← deref data
  if data.success then
    JS.modify (showToast (.trafficUpdated fromId toId multiplier) .success)
    JS.modify fun st => { st with trafficFrom := "", trafficTo := "", trafficLevel := "1.0" }
  else
    JS.modify (showToast (.text (orDefault data.message "Failed to update traffic")) .error)

/-- The click handler `updateTraffic`, given what the network answers. -/
def updateTraffic (outcome : FetchOutcome TrafficResponse) (st : DomState) : DomState :=
  let fromId := st.trafficFrom
  let toId := st.trafficTo
  let multiplier := parseFloat st.trafficLevel
  if fromId = "" ∨ toId = "" then
    showToast (.text "Please select both junctions") .error st
  else if fromId = toId then
    showToast (.text "From and To junctions cannot be the same!") .error st
  else
    let st₁ := { st with updateTrafficBtn := ⟨true, "Updating..."⟩ }
    tryCatchFinally (updateTrafficTry fromId toId multiplier outcome)
      (fun s => showToast (.text "Failed to update traffic") .error (consoleError s))
      (fun s => { s with updateTrafficBtn := ⟨false, "Update Traffic"⟩ })
      st₁

/-! ## Server status -/

/-- The body of a `GET /health` answer: is `data.status === 'OK'`, and the text of
`${data.junctions}`. -/
structure HealthResponse where
  statusOk : Bool
  junctions : String

/-- The method `classList.add(name)`. -/
def classListAdd (name : String) (classes : List String) : List String :=
  if name ∈ classes then classes else classes ++ [name]

/-- The `try` block of `checkServerStatus`. -/
def checkServerStatusTry (outcome : FetchOutcome HealthResponse) : JS Unit := do
  let data ← fetchJson ⟨"GET", "/health", .empty⟩ outcome
  let data ← deref data
  if data.statusOk then
    JS.modify fun st =>
      { st with serverStatusClasses := classListAdd "online" st.serverStatusClasses }
    JS.modify fun st =>
      { st with statusText := "AWS Server Online • " ++ data.junctions ++ " Junctions" }
  else
    JS.pure ()

/-- The function `checkServerStatus`, given what the network answers. -/
def checkServerStatus (outcome : FetchOutcome HealthResponse) (st : DomState) : DomState :=
  tryCatch (checkServerStatusTry outcome)
    (fun s =>
      showToast (.text "Cannot connect to AWS server!") .error
        { s with serverStatusClasses := classListAdd "offline" s.serverStatusClasses,
                 statusText := "Server Offline" })
    st

/-- The page after a sequence of completed `checkServerStatus` runs (the one at load, then the
ones started by `setInterval`), each with its network outcome. -/
def runStatusChecks (outcomes : List (FetchOutcome HealthResponse)) (st : DomState) : DomState :=
  outcomes.foldl (fun s outcome => checkServerStatus outcome s) st


/-! ## Observing a run -/

/-- The `fetch` calls made between two states of the page. -/
def requestsIssued (before after : DomState) : List Request :=
  after.requests.drop before.requests.length

/-- The `showToast` calls made between two states of the page. -/
def toastsShown (before after : DomState) : List Toast :=
  after.toasts.drop before.toasts.length

/-- What `JSON.stringify` writes for a request body: the fields in order. -/
def jsonStringify : RequestBody → List (String × JsonNumber)
  | .empty => []
  | .path source destination =>
    [("source", jsonStringifyNumber source), ("destination", jsonStringifyNumber destination)]
  | .traffic from_ to_ multiplier =>
    [("from", jsonStringifyNumber from_), ("to", jsonStringifyNumber to_),
     ("multiplier", jsonStringifyNumber multiplier)]

/-- A page on which nothing is selected and nothing has happened yet. -/
def freshPage : DomState where
  sourceSelect := ""
  destSelect := ""
  trafficFrom := ""
  trafficTo := ""
  trafficLevel := "1.0"
  findRouteBtn := ⟨false, "Find Shortest Route"⟩
  updateTrafficBtn := ⟨false, "Update Traffic"⟩
  toasts := []
  requests := []
  consoleErrors := 0
  resultsCardDisplay := "none"
  totalTime := none
  totalDistance := none
  pathDisplay := ""
  serverStatusClasses := []
  statusText := ""

/-- The page at the end of a block, however it ends. -/
def Completion.state {α : Type} : Completion α → DomState
  | .normal _ st => st
  | .throw st => st

/-- Number of places in `text` at which `pattern` starts. -/
def countOccurrences (pattern : List Char) : List Char → Nat
  | [] => 0
  | c :: cs => (if pattern.isPrefixOf (c :: cs) then 1 else 0) + countOccurrences pattern cs

/-- Number of `path-step` elements opened in a piece of markup. -/
def pathStepCount (markup : String) : Nat :=
  countOccurrences "<div class=\"path-step\">".data markup.data

/-- Number of `path-arrow` elements opened in a piece of markup. -/
def pathArrowCount (markup : String) : Nat :=
  countOccurrences "<div class=\"path-arrow\">".data markup.data


/-! ## The routing engine of the specification -/

/-- Modelled from the spec: a road of the graph (§3), directed from `fromId` to `toId` (a two-way
road is a mirrored pair). -/
structure Road where
  fromId : Int
  toId : Int
  baseTime : ℚ
  baseDistance : ℚ
  multiplier : ℚ
deriving DecidableEq

/-- Modelled from the spec: effective travel time = base travel time × current traffic
multiplier. -/
def Road.effectiveTime (r : Road) : ℚ := r.baseTime * r.multiplier

/-- Modelled from the spec: a graph snapshot (§3, §4.1), the junctions and the roads with their
current multipliers. -/
structure Graph where
  junctions : List Junction
  roads : List Road

/-- Modelled from the spec: does `id` name a junction of the graph? -/
def Graph.hasJunction (g : Graph) (id : Int) : Bool := g.junctions.any (·.id = id)

/-- Modelled from the spec: the invariants that `load` validates and every snapshot keeps, for
multiplier bounds `[minMultiplier, maxMultiplier]`. -/
def Graph.Valid (g : Graph) (minMultiplier maxMultiplier : ℚ) : Prop :=
  ∀ r ∈ g.roads, 0 < r.baseTime ∧ 0 < r.baseDistance ∧
    minMultiplier ≤ r.multiplier ∧ r.multiplier ≤ maxMultiplier ∧
    g.hasJunction r.fromId = true ∧ g.hasJunction r.toId = true

/-- The roads `rs` of the graph lead from junction `s` to junction `t`, one after the other. -/
def Chain (g : Graph) : Int → List Road → Int → Prop
  | s, [], t => s = t
  | s, r :: rs, t => r ∈ g.roads ∧ r.fromId = s ∧ Chain g r.toId rs t

/-- The junctions visited from `s` along the roads `rs`. -/
def junctionsOf (s : Int) (rs : List Road) : List Int := s :: rs.map (·.toId)

/-- Sum of the effective times of the roads. -/
def timeOf (rs : List Road) : ℚ := (rs.map Road.effectiveTime).sum

/-- Sum of the base distances of the roads. -/
def distanceOf (rs : List Road) : ℚ := (rs.map (·.baseDistance)).sum

/-- Modelled from the spec: the errors of `findShortestPath` (§7), with the defensive
`InternalError`. -/
inductive RoutingError where
  | junctionNotFound
  | sameJunction
  | noPathFound
  | internalError
deriving DecidableEq

/-- Modelled from the spec: the route result (§3), junction sequence (by id), total effective
time, total base distance. -/
structure RouteResult where
  path : List Int
  totalTime : ℚ
  totalDistance : ℚ
deriving DecidableEq

/-- Modelled from the spec: an entry of the priority structure (§4.2), a junction reached, the
roads taken to it from the source, and the accumulated effective time and base distance. -/
structure Candidate where
  junction : Int
  roads : List Road
  time : ℚ
  distance : ℚ
deriving DecidableEq

/-- Modelled from the spec: the priority order (§4.2), less total time first, then fewer
edges. -/
def Candidate.before (a b : Candidate) : Bool :=
  decide (a.time < b.time) || (decide (a.time = b.time) && decide (a.roads.length < b.roads.length))

/-- Modelled from the spec: take the entry of highest priority out of the queue; among equals,
the one inserted first. -/
def popMin : List Candidate → Option (Candidate × List Candidate)
  | [] => none
  | c :: cs =>
    match popMin cs with
    | none => some (c, [])
    | some (m, rest) => if m.before c then some (m, c :: rest) else some (c, cs)

/-- Modelled from the spec: the entries reached from `c` by one more road, in the insertion
order of the roads. -/
def expand (g : Graph) (c : Candidate) : List Candidate :=
  (g.roads.filter fun r => r.fromId = c.junction).map fun r =>
    ⟨r.toId, c.roads ++ [r], c.time + r.effectiveTime, c.distance + r.baseDistance⟩

/-- Modelled from the spec: is the junction already settled? -/
def isSettled (settled : List Candidate) (junction : Int) : Bool :=
  settled.any (·.junction = junction)

/-- Modelled from the spec: how the expansion ends. -/
inductive SearchResult where
  | found (c : Candidate)
  | exhausted
  | outOfFuel

/-- Modelled from the spec: priority-ordered expansion (§4.2) from the queue until the
destination is taken out; `fuel` bounds the number of rounds. -/
def search (g : Graph) (destId : Int) : Nat → List Candidate → List Candidate → SearchResult
  | 0, _, _ => .outOfFuel
  | fuel + 1, queue, settled =>
    match popMin queue with
    | none => .exhausted
    | some (m, rest) =>
      if isSettled settled m.junction then search g destId fuel rest settled
      else if m.junction = destId then .found m
      else search g destId fuel (rest ++ expand g m) (m :: settled)

/-- Modelled from the spec: the routing engine's `findShortestPath` (§4.2), which is not part of
the front-end source.  Dijkstra's algorithm by effective travel time with the tie-breaks of the
spec; every road is expanded at most once, so `roads.length + 2` rounds are enough. -/
def findShortestPath (g : Graph) (sourceId destId : Int) : Except RoutingError RouteResult :=
  if ¬ (g.hasJunction sourceId ∧ g.hasJunction destId) then .error .junctionNotFound
  else if sourceId = destId then .error .sameJunction
  else
    match search g destId (g.roads.length + 2) [⟨sourceId, [], 0, 0⟩] [] with
    | .found c => .ok ⟨junctionsOf sourceId c.roads, c.time, c.distance⟩
    | .exhausted => .error .noPathFound
    | .outOfFuel => .error .internalError

/-- Modelled from the spec: the 3-junction scenario of §8, with A(1), B(2), C(3). -/
def scenario : Graph where
  junctions := [⟨1, "A"⟩, ⟨2, "B"⟩, ⟨3, "C"⟩]
  roads := [⟨1, 2, 10, 5, 1⟩, ⟨2, 3, 10, 5, 1⟩, ⟨1, 3, 30, 25, 1⟩]

/-- The invariant of the expansion: queue entries are real routes from the source, settled
entries are optimal, the roads out of settled junctions have been relaxed, and the destination
is not settled yet. -/
structure SearchInv (g : Graph) (sourceId destId : Int) (queue settled : List Candidate) :
    Prop where
  valid : ∀ c ∈ queue, Chain g sourceId c.roads c.junction ∧ c.time = timeOf c.roads ∧
    c.distance = distanceOf c.roads
  optimal : ∀ s ∈ settled, ∀ rs, Chain g sourceId rs s.junction → s.time ≤ timeOf rs
  start : isSettled settled sourceId = true ∨ ∃ e ∈ queue, e.junction = sourceId ∧ e.time ≤ 0
  relaxed : ∀ s ∈ settled, ∀ r ∈ g.roads, r.fromId = s.junction →
    isSettled settled r.toId = true ∨
      ∃ e ∈ queue, e.junction = r.toId ∧ e.time ≤ s.time + r.effectiveTime
  destOpen : isSettled settled destId = false

/-- The work left: queue entries plus roads whose start is not settled. -/
def workLeft (g : Graph) (queue settled : List Candidate) : Nat :=
  queue.length + (g.roads.filter fun r => !isSettled settled r.fromId).length

/-! ## Frame facts of the handlers -/

theorem displayRoute_state (data : PathResponse) (st : DomState) :
    (displayRoute data st).state.requests = st.requests ∧
    (displayRoute data st).state.toasts = st.toasts ∧
    (displayRoute data st).state.trafficFrom = st.trafficFrom ∧
    (displayRoute data st).state.trafficTo = st.trafficTo ∧
    (displayRoute data st).state.trafficLevel = st.trafficLevel := by
  rcases data with ⟨success, message, path, totalTime, estimatedDistance⟩
  cases totalTime <;> cases estimatedDistance <;> cases path <;>
    simp [displayRoute, bind, JS.bind, JS.modify, deref, JS.throwError, JS.pure, Completion.state]
  rename_i t d p
  cases allJunctions p <;>
    simp [displayRoute, bind, JS.bind, JS.modify, deref, JS.throwError, JS.pure, Completion.state]

theorem findRoute_of_empty (outcome : FetchOutcome PathResponse) (st : DomState)
    (h : st.sourceSelect = "" ∨ st.destSelect = "") :
    findRoute outcome st =
      showToast (.text "Please select both source and destination") .error st := by
  simp only [findRoute, if_pos h]

theorem findRoute_of_same (outcome : FetchOutcome PathResponse) (st : DomState)
    (h : ¬ (st.sourceSelect = "" ∨ st.destSelect = "")) (h' : st.sourceSelect = st.destSelect) :
    findRoute outcome st =
      showToast (.text "Source and destination cannot be the same!") .error st := by
  simp only [findRoute, if_neg h, if_pos h']

theorem findRoute_of_pass (outcome : FetchOutcome PathResponse) (st : DomState)
    (h : ¬ (st.sourceSelect = "" ∨ st.destSelect = "")) (h' : ¬ st.sourceSelect = st.destSelect) :
    findRoute outcome st =
      tryCatchFinally (findRouteTry st.sourceSelect st.destSelect outcome)
        (fun s => showToast (.text "Failed to find route") .error (consoleError s))
        (fun s => { s with findRouteBtn := ⟨false, "Find Shortest Route"⟩ })
        { st with findRouteBtn := ⟨true, "Finding Route..."⟩ } := by
  simp only [findRoute, if_neg h, if_neg h']

theorem findRouteTry_requests (sourceId destId : String) (outcome : FetchOutcome PathResponse)
    (st : DomState) :
    (findRouteTry sourceId destId outcome st).state.requests =
      st.requests ++ [⟨"POST", "/path", .path (parseInt sourceId) (parseInt destId)⟩] := by
  rcases outcome with _ | _ | data
  · simp [findRouteTry, bind, JS.bind, fetchJson, Completion.state]
  · simp [findRouteTry, bind, JS.bind, fetchJson, Completion.state]
  · rcases data with _ | data
    · simp [findRouteTry, bind, JS.bind, fetchJson, Completion.state, deref, JS.throwError]
    · cases hs : data.success
      · simp [findRouteTry, bind, JS.bind, fetchJson, Completion.state, deref, JS.pure, hs,
          JS.modify, showToast]
      · have hd := (displayRoute_state data
          { st with requests := st.requests ++
              [⟨"POST", "/path", .path (parseInt sourceId) (parseInt destId)⟩] }).1
        simp only [findRouteTry, bind, JS.bind, fetchJson, deref, JS.pure, hs, if_true]
        revert hd
        cases displayRoute data _ <;> simp [Completion.state, JS.modify, showToast]

theorem tryCatchFinally_requests (body : JS Unit) (handler finalizer : DomState → DomState)
    (st : DomState) (hh : ∀ s, (handler s).requests = s.requests)
    (hf : ∀ s, (finalizer s).requests = s.requests) :
    (tryCatchFinally body handler finalizer st).requests = (body st).state.requests := by
  unfold tryCatchFinally
  cases body st <;> simp [Completion.state, hh, hf]

theorem findRoute_requests (outcome : FetchOutcome PathResponse) (st : DomState) :
    requestsIssued st (findRoute outcome st) =
      if st.sourceSelect ≠ "" ∧ st.destSelect ≠ "" ∧ st.sourceSelect ≠ st.destSelect then
        [⟨"POST", "/path", .path (parseInt st.sourceSelect) (parseInt st.destSelect)⟩]
      else [] := by
  by_cases h1 : st.sourceSelect = "" ∨ st.destSelect = ""
  · have hc : ¬ (st.sourceSelect ≠ "" ∧ st.destSelect ≠ "" ∧ st.sourceSelect ≠ st.destSelect) := by
      rcases h1 with h | h <;> simp [h]
    rw [if_neg hc, findRoute_of_empty outcome st h1]
    simp [showToast, requestsIssued]
  · by_cases h2 : st.sourceSelect = st.destSelect
    · have hc : ¬ (st.sourceSelect ≠ "" ∧ st.destSelect ≠ "" ∧
          st.sourceSelect ≠ st.destSelect) := fun h => h.2.2 h2
      rw [if_neg hc, findRoute_of_same outcome st h1 h2]
      simp [showToast, requestsIssued]
    · have hc : (st.sourceSelect ≠ "" ∧ st.destSelect ≠ "" ∧ st.sourceSelect ≠ st.destSelect) := by
        push_neg at h1
        exact ⟨h1.1, h1.2, h2⟩
      rw [if_pos hc, findRoute_of_pass outcome st h1 h2]
      unfold requestsIssued
      rw [tryCatchFinally_requests _ _ _ _ (by intro s; rfl) (by intro s; rfl),
        findRouteTry_requests]
      simp

theorem updateTraffic_of_empty (outcome : FetchOutcome TrafficResponse) (st : DomState)
    (h : st.trafficFrom = "" ∨ st.trafficTo = "") :
    updateTraffic outcome st = showToast (.text "Please select both junctions") .error st := by
  simp only [updateTraffic, if_pos h]

theorem updateTraffic_of_same (outcome : FetchOutcome TrafficResponse) (st : DomState)
    (h : ¬ (st.trafficFrom = "" ∨ st.trafficTo = "")) (h' : st.trafficFrom = st.trafficTo) :
    updateTraffic outcome st =
      showToast (.text "From and To junctions cannot be the same!") .error st := by
  simp only [updateTraffic, if_neg h, if_pos h']

theorem updateTraffic_of_pass (outcome : FetchOutcome TrafficResponse) (st : DomState)
    (h : ¬ (st.trafficFrom = "" ∨ st.trafficTo = "")) (h' : ¬ st.trafficFrom = st.trafficTo) :
    updateTraffic outcome st =
      tryCatchFinally
        (updateTrafficTry st.trafficFrom st.trafficTo (parseFloat st.trafficLevel) outcome)
        (fun s => showToast (.text "Failed to update traffic") .error (consoleError s))
        (fun s => { s with updateTrafficBtn := ⟨false, "Update Traffic"⟩ })
        { st with updateTrafficBtn := ⟨true, "Updating..."⟩ } := by
  simp only [updateTraffic, if_neg h, if_neg h']

theorem updateTrafficTry_requests (fromId toId : String) (multiplier : JSNumber)
    (outcome : FetchOutcome TrafficResponse) (st : DomState) :
    (updateTrafficTry fromId toId multiplier outcome st).state.requests =
      st.requests ++ [⟨"POST", "/traffic", .traffic (parseInt fromId) (parseInt toId) multiplier⟩] := by
  rcases outcome with _ | _ | data
  · simp [updateTrafficTry, bind, JS.bind, fetchJson, Completion.state]
  · simp [updateTrafficTry, bind, JS.bind, fetchJson, Completion.state]
  · rcases data with _ | data
    · simp [updateTrafficTry, bind, JS.bind, fetchJson, Completion.state, deref, JS.throwError]
    · cases hs : data.success <;>
        simp [updateTrafficTry, bind, JS.bind, fetchJson, Completion.state, deref, JS.pure, hs,
          JS.modify, showToast]

theorem updateTraffic_requests (outcome : FetchOutcome TrafficResponse) (st : DomState) :
    requestsIssued st (updateTraffic outcome st) =
      if st.trafficFrom ≠ "" ∧ st.trafficTo ≠ "" ∧ st.trafficFrom ≠ st.trafficTo then
        [⟨"POST", "/traffic", .traffic (parseInt st.trafficFrom) (parseInt st.trafficTo)
          (parseFloat st.trafficLevel)⟩]
      else [] := by
  by_cases h1 : st.trafficFrom = "" ∨ st.trafficTo = ""
  · have hc : ¬ (st.trafficFrom ≠ "" ∧ st.trafficTo ≠ "" ∧ st.trafficFrom ≠ st.trafficTo) := by
      rcases h1 with h | h <;> simp [h]
    rw [if_neg hc, updateTraffic_of_empty outcome st h1]
    simp [showToast, requestsIssued]
  · by_cases h2 : st.trafficFrom = st.trafficTo
    · have hc : ¬ (st.trafficFrom ≠ "" ∧ st.trafficTo ≠ "" ∧
          st.trafficFrom ≠ st.trafficTo) := fun h => h.2.2 h2
      rw [if_neg hc, updateTraffic_of_same outcome st h1 h2]
      simp [showToast, requestsIssued]
    · have hc : (st.trafficFrom ≠ "" ∧ st.trafficTo ≠ "" ∧ st.trafficFrom ≠ st.trafficTo) := by
        push_neg at h1
        exact ⟨h1.1, h1.2, h2⟩
      rw [if_pos hc, updateTraffic_of_pass outcome st h1 h2]
      unfold requestsIssued
      rw [tryCatchFinally_requests _ _ _ _ (by intro s; rfl) (by intro s; rfl),
        updateTrafficTry_requests]
      simp

/-! ## The selection guards -/

/-- C1: `findRoute` issues the `POST /path` request exactly when both selected values are
non-empty and differ.  In that case the one request carries `parseInt` of the two values; in every
other case no request is issued, exactly one error toast is shown ('Please select both source and
destination' when a value is empty, otherwise 'Source and destination cannot be the same!') and
the button is left as it was. -/
theorem findRoute_guards (outcome : FetchOutcome PathResponse) (st : DomState) :
    if st.sourceSelect ≠ "" ∧ st.destSelect ≠ "" ∧ st.sourceSelect ≠ st.destSelect then
      requestsIssued st (findRoute outcome st) =
        [⟨"POST", "/path", .path (parseInt st.sourceSelect) (parseInt st.destSelect)⟩]
    else
      requestsIssued st (findRoute outcome st) = [] ∧
      toastsShown st (findRoute outcome st) =
        [⟨.text (if st.sourceSelect = "" ∨ st.destSelect = ""
            then "Please select both source and destination"
            else "Source and destination cannot be the same!"), .error⟩] ∧
      (findRoute outcome st).findRouteBtn = st.findRouteBtn := by
  have hreq := findRoute_requests outcome st
  by_cases hc : st.sourceSelect ≠ "" ∧ st.destSelect ≠ "" ∧ st.sourceSelect ≠ st.destSelect
  · rw [if_pos hc] at hreq ⊢
    exact hreq
  · rw [if_neg hc] at hreq ⊢
    refine ⟨hreq, ?_⟩
    by_cases h1 : st.sourceSelect = "" ∨ st.destSelect = ""
    · rw [findRoute_of_empty outcome st h1, if_pos h1]
      simp [showToast, toastsShown]
    · have h2 : st.sourceSelect = st.destSelect := by
        by_contra h2
        push_neg at h1
        exact hc ⟨h1.1, h1.2, h2⟩
      rw [findRoute_of_same outcome st h1 h2, if_neg h1]
      simp [showToast, toastsShown]

/-- C2: `updateTraffic` issues the `POST /traffic` request exactly when both selected values are
non-empty and differ; in every other case no request is issued and exactly one error toast is
shown ('Please select both junctions' when a value is empty, otherwise 'From and To junctions
cannot be the same!'). -/
theorem updateTraffic_guards (outcome : FetchOutcome TrafficResponse) (st : DomState) :
    if st.trafficFrom ≠ "" ∧ st.trafficTo ≠ "" ∧ st.trafficFrom ≠ st.trafficTo then
      requestsIssued st (updateTraffic outcome st) =
        [⟨"POST", "/traffic", .traffic (parseInt st.trafficFrom) (parseInt st.trafficTo)
          (parseFloat st.trafficLevel)⟩]
    else
      requestsIssued st (updateTraffic outcome st) = [] ∧
      toastsShown st (updateTraffic outcome st) =
        [⟨.text (if st.trafficFrom = "" ∨ st.trafficTo = ""
            then "Please select both junctions"
            else "From and To junctions cannot be the same!"), .error⟩] := by
  have hreq := updateTraffic_requests outcome st
  by_cases hc : st.trafficFrom ≠ "" ∧ st.trafficTo ≠ "" ∧ st.trafficFrom ≠ st.trafficTo
  · rw [if_pos hc] at hreq ⊢
    exact hreq
  · rw [if_neg hc] at hreq ⊢
    refine ⟨hreq, ?_⟩
    by_cases h1 : st.trafficFrom = "" ∨ st.trafficTo = ""
    · rw [updateTraffic_of_empty outcome st h1, if_pos h1]
      simp [showToast, toastsShown]
    · have h2 : st.trafficFrom = st.trafficTo := by
        by_contra h2
        push_neg at h1
        exact hc ⟨h1.1, h1.2, h2⟩
      rw [updateTraffic_of_same outcome st h1 h2, if_neg h1]
      simp [showToast, toastsShown]

/-! ## Failure answers -/

theorem findRouteTry_failure (sourceId destId : String) (data : PathResponse) (st : DomState)
    (hs : data.success = false) :
    findRouteTry sourceId destId (.json (some data)) st =
      .normal () (showToast (.text (orDefault data.message "No route found")) .error
        { st with requests := st.requests ++
            [⟨"POST", "/path", .path (parseInt sourceId) (parseInt destId)⟩] }) := by
  simp [findRouteTry, bind, JS.bind, fetchJson, deref, JS.pure, hs, JS.modify]

theorem updateTrafficTry_failure (fromId toId : String) (multiplier : JSNumber)
    (data : TrafficResponse) (st : DomState) (hs : data.success = false) :
    updateTrafficTry fromId toId multiplier (.json (some data)) st =
      .normal () (showToast (.text (orDefault data.message "Failed to update traffic")) .error
        { st with requests := st.requests ++
            [⟨"POST", "/traffic", .traffic (parseInt fromId) (parseInt toId) multiplier⟩] }) := by
  simp [updateTrafficTry, bind, JS.bind, fetchJson, deref, JS.pure, hs, JS.modify]

theorem orDefault_of_ne (m fallback : String) (hm : m ≠ "") : orDefault (some m) fallback = m := by
  simp [orDefault, hm]

/-- C5, counterexample: a `success: false` answer whose message is the empty string shows the
fallback text 'No route found', not the message. -/
theorem empty_message_replaced :
    toastsShown { freshPage with sourceSelect := "1", destSelect := "2" }
      (findRoute (.json (some ⟨false, some "", none, none, none⟩))
        { freshPage with sourceSelect := "1", destSelect := "2" }) =
      [⟨.text "No route found", .error⟩] ∧
    ToastMessage.text "No route found" ≠ ToastMessage.text "" := by
  decide

/-- C5, as amended: for a `success: false` answer with a non-empty string message `m`, `findRoute`
and `updateTraffic` (past their selection guards) show exactly one error toast with text `m`;
`displayRoute` is not run (results card, totals and path markup are unchanged) and the traffic
form fields are not reset. -/
theorem failure_message_shown (m : String) (hm : m ≠ "") :
    (∀ (st : DomState) (data : PathResponse),
      st.sourceSelect ≠ "" → st.destSelect ≠ "" → st.sourceSelect ≠ st.destSelect →
      data.success = false → data.message = some m →
        toastsShown st (findRoute (.json (some data)) st) = [⟨.text m, .error⟩] ∧
        (findRoute (.json (some data)) st).resultsCardDisplay = st.resultsCardDisplay ∧
        (findRoute (.json (some data)) st).totalTime = st.totalTime ∧
        (findRoute (.json (some data)) st).totalDistance = st.totalDistance ∧
        (findRoute (.json (some data)) st).pathDisplay = st.pathDisplay) ∧
    (∀ (st : DomState) (data : TrafficResponse),
      st.trafficFrom ≠ "" → st.trafficTo ≠ "" → st.trafficFrom ≠ st.trafficTo →
      data.success = false → data.message = some m →
        toastsShown st (updateTraffic (.json (some data)) st) = [⟨.text m, .error⟩] ∧
        (updateTraffic (.json (some data)) st).trafficFrom = st.trafficFrom ∧
        (updateTraffic (.json (some data)) st).trafficTo = st.trafficTo ∧
        (updateTraffic (.json (some data)) st).trafficLevel = st.trafficLevel) := by
  constructor
  · intro st data h1 h2 h3 hs hmsg
    rw [findRoute_of_pass _ st (by simp [h1, h2]) h3]
    simp [tryCatchFinally, findRouteTry_failure _ _ data _ hs, hmsg, orDefault_of_ne m _ hm,
      showToast, toastsShown]
  · intro st data h1 h2 h3 hs hmsg
    rw [updateTraffic_of_pass _ st (by simp [h1, h2]) h3]
    simp [tryCatchFinally, updateTrafficTry_failure _ _ _ data _ hs, hmsg, orDefault_of_ne m _ hm,
      showToast, toastsShown]

/-- C5, instance: the messages 'NoPathFound' and 'RoadNotFound'. -/
theorem failure_message_shown_witness :
    toastsShown { freshPage with sourceSelect := "1", destSelect := "2" }
        (findRoute (.json (some ⟨false, some "NoPathFound", none, none, none⟩))
          { freshPage with sourceSelect := "1", destSelect := "2" }) =
      [⟨.text "NoPathFound", .error⟩] ∧
    toastsShown { freshPage with trafficFrom := "1", trafficTo := "2" }
        (updateTraffic (.json (some ⟨false, some "RoadNotFound"⟩))
          { freshPage with trafficFrom := "1", trafficTo := "2" }) =
      [⟨.text "RoadNotFound", .error⟩] :=
  ⟨((failure_message_shown "NoPathFound" (by decide)).1
      { freshPage with sourceSelect := "1", destSelect := "2" }
      ⟨false, some "NoPathFound", none, none, none⟩
      (by decide) (by decide) (by decide) rfl rfl).1,
   ((failure_message_shown "RoadNotFound" (by decide)).2
      { freshPage with trafficFrom := "1", trafficTo := "2" }
      ⟨false, some "RoadNotFound"⟩
      (by decide) (by decide) (by decide) rfl rfl).1⟩

/-! ## The buttons are released -/

theorem tryCatchFinally_finalizer (body : JS Unit) (handler finalizer : DomState → DomState)
    (st : DomState) : ∃ s, tryCatchFinally body handler finalizer st = finalizer s := by
  unfold tryCatchFinally
  cases body st
  · exact ⟨_, rfl⟩
  · exact ⟨_, rfl⟩

/-- C9: on every run of `findRoute` (resp. `updateTraffic`) that passes the selection guards,
whatever the network answers (rejection, a body that is not JSON, `null`, success, failure, a
success payload on which `displayRoute` throws), the button ends enabled with text 'Find Shortest
Route' (resp. 'Update Traffic'). -/
theorem buttons_released :
    (∀ (outcome : FetchOutcome PathResponse) (st : DomState),
      st.sourceSelect ≠ "" → st.destSelect ≠ "" → st.sourceSelect ≠ st.destSelect →
        (findRoute outcome st).findRouteBtn = ⟨false, "Find Shortest Route"⟩) ∧
    (∀ (outcome : FetchOutcome TrafficResponse) (st : DomState),
      st.trafficFrom ≠ "" → st.trafficTo ≠ "" → st.trafficFrom ≠ st.trafficTo →
        (updateTraffic outcome st).updateTrafficBtn = ⟨false, "Update Traffic"⟩) := by
  constructor
  · intro outcome st h1 h2 h3
    rw [findRoute_of_pass _ st (by simp [h1, h2]) h3]
    obtain ⟨s, hs⟩ := tryCatchFinally_finalizer
      (findRouteTry st.sourceSelect st.destSelect outcome)
      (fun s => showToast (.text "Failed to find route") .error (consoleError s))
      (fun s => { s with findRouteBtn := ⟨false, "Find Shortest Route"⟩ })
      { st with findRouteBtn := ⟨true, "Finding Route..."⟩ }
    rw [hs]
  · intro outcome st h1 h2 h3
    rw [updateTraffic_of_pass _ st (by simp [h1, h2]) h3]
    obtain ⟨s, hs⟩ := tryCatchFinally_finalizer
      (updateTrafficTry st.trafficFrom st.trafficTo (parseFloat st.trafficLevel) outcome)
      (fun s => showToast (.text "Failed to update traffic") .error (consoleError s))
      (fun s => { s with updateTrafficBtn := ⟨false, "Update Traffic"⟩ })
      { st with updateTrafficBtn := ⟨true, "Updating..."⟩ }
    rw [hs]

/-- C9, instance: a success payload without route data (on which `displayRoute` throws) and a
traffic answer that is not JSON. -/
theorem buttons_released_witness :
    (findRoute (.json (some ⟨true, none, none, none, none⟩))
        { freshPage with sourceSelect := "1", destSelect := "2" }).findRouteBtn =
      ⟨false, "Find Shortest Route"⟩ ∧
    (updateTraffic .notJson
        { freshPage with trafficFrom := "1", trafficTo := "2" }).updateTrafficBtn =
      ⟨false, "Update Traffic"⟩ :=
  ⟨buttons_released.1 (.json (some ⟨true, none, none, none, none⟩))
      { freshPage with sourceSelect := "1", destSelect := "2" }
      (by decide) (by decide) (by decide),
   buttons_released.2 .notJson { freshPage with trafficFrom := "1", trafficTo := "2" }
      (by decide) (by decide) (by decide)⟩

/-! ## Ids through the dropdowns -/

theorem decimalDigitsAux_append (fuel n : Nat) (acc : List Nat) :
    decimalDigitsAux fuel n acc = decimalDigitsAux fuel n [] ++ acc := by
  induction fuel generalizing n acc with
  | zero => simp [decimalDigitsAux]
  | succ fuel ih =>
    unfold decimalDigitsAux
    by_cases h : n < 10
    · simp [h]
    · simp only [h, if_false]
      rw [ih (n / 10) (n % 10 :: acc), ih (n / 10) [n % 10]]
      simp

theorem digitsValue_append_singleton (R : Nat) (ds : List Nat) (d : Nat) :
    digitsValue R (ds ++ [d]) = digitsValue R ds * R + d := by
  simp [digitsValue, List.foldl_append]

theorem digitsValue_decimalDigitsAux (fuel n : Nat) (h : n < fuel) :
    digitsValue 10 (decimalDigitsAux fuel n []) = n := by
  induction fuel generalizing n with
  | zero => omega
  | succ fuel ih =>
    unfold decimalDigitsAux
    by_cases hn : n < 10
    · simp [hn, digitsValue]
    · simp only [hn, if_false]
      rw [decimalDigitsAux_append, digitsValue_append_singleton, ih (n / 10) (by omega)]
      omega

theorem decimalDigitsAux_lt (fuel n : Nat) :
    ∀ d ∈ decimalDigitsAux fuel n [], d < 10 := by
  induction fuel generalizing n with
  | zero => simp [decimalDigitsAux]
  | succ fuel ih =>
    unfold decimalDigitsAux
    by_cases hn : n < 10
    · simp [hn]
    · simp only [hn, if_false]
      rw [decimalDigitsAux_append]
      intro d hd
      rcases List.mem_append.1 hd with h | h
      · exact ih _ d h
      · simp at h
        omega

theorem decimalDigits_ne_nil (n : Nat) : decimalDigits n ≠ [] := by
  unfold decimalDigits decimalDigitsAux
  by_cases hn : n < 10
  · simp [hn]
  · simp only [hn, if_false]
    rw [decimalDigitsAux_append]
    simp

theorem digitsValue_decimalDigits (n : Nat) : digitsValue 10 (decimalDigits n) = n :=
  digitsValue_decimalDigitsAux (n + 1) n (Nat.lt_succ_self n)

theorem decimalDigits_lt (n : Nat) : ∀ d ∈ decimalDigits n, d < 10 :=
  decimalDigitsAux_lt (n + 1) n

theorem digitChar_facts (d : Nat) (h : d < 10) :
    radixDigit 10 (digitChar d) = some d ∧ isWhiteSpace (digitChar d) = false ∧
    digitChar d ≠ '-' ∧ digitChar d ≠ '+' ∧ digitChar d ≠ 'x' ∧ digitChar d ≠ 'X' := by
  interval_cases d <;> decide

theorem takeDigits_map_digitChar (ds : List Nat) (h : ∀ d ∈ ds, d < 10) :
    takeDigits 10 (ds.map digitChar) = ds := by
  induction ds with
  | nil => rfl
  | cons d ds ih =>
    have hd := (digitChar_facts d (h d (List.mem_cons_self _ _))).1
    simp only [List.map_cons, takeDigits, hd]
    rw [ih (fun x hx => h x (List.mem_cons_of_mem _ hx))]

theorem readRadix_digits (ds : List Nat) (h : ∀ d ∈ ds, d < 10) :
    readRadix (ds.map digitChar) = (10, ds.map digitChar) := by
  match ds, h with
  | [], _ => rfl
  | [_], _ => rfl
  | d₀ :: d₁ :: rest, h =>
    have h1 := digitChar_facts d₁ (h d₁ (by simp))
    simp [readRadix, h1.2.2.2.2.1, h1.2.2.2.2.2]

theorem decimalDigitsAux_length (fuel : Nat) :
    ∀ n k, 1 ≤ k → n < 10 ^ k → (decimalDigitsAux fuel n []).length ≤ k := by
  induction fuel with
  | zero => intro n k _ _; simp [decimalDigitsAux]
  | succ fuel ih =>
    intro n k hk hn
    unfold decimalDigitsAux
    by_cases h : n < 10
    · simp [h]
      omega
    · simp only [h, if_false]
      rw [decimalDigitsAux_append]
      have hk2 : 2 ≤ k := by
        by_contra hlt
        have hk1 : k = 1 := by omega
        subst hk1
        simp at hn
        omega
      have hdiv : n / 10 < 10 ^ (k - 1) := by
        have hpow : 10 ^ k = 10 ^ (k - 1) * 10 := by
          rw [← pow_succ]
          congr 1
          omega
        rw [hpow] at hn
        exact Nat.div_lt_of_lt_mul (by rw [Nat.mul_comm]; exact hn)
      have := ih (n / 10) (k - 1) (by omega) hdiv
      simp only [List.length_append, List.length_singleton]
      omega

theorem decimalDigits_length (n k : Nat) (hk : 1 ≤ k) (hn : n < 10 ^ k) :
    (decimalDigits n).length ≤ k :=
  decimalDigitsAux_length (n + 1) n k hk hn

theorem sameNumber_self (n : Nat) : sameNumber n n = true := by
  simp [sameNumber]

theorem ofInt_natCast (n : Nat) : JSNumber.ofInt (n : Int) = toNumber false n 1 := by
  have h : ¬ ((n : Int) < 0) := by omega
  simp [JSNumber.ofInt, h]

theorem sameNumber_iff (v n : Nat) :
    sameNumber v n = true ↔ toNumber false v 1 = toNumber false n 1 := by
  simp [sameNumber, ofInt_natCast]

theorem candidate_le (n j : Nat) (hn : n < 10 ^ 21) (hj : j + 1 ≤ 21) :
    n / 10 ^ (j + 1) * 10 ^ (j + 1) ≤ n ∧
      n / 10 ^ (j + 1) * 10 ^ (j + 1) + 10 ^ (j + 1) ≤ 10 ^ 21 := by
  refine ⟨Nat.div_mul_le_self _ _, ?_⟩
  have hsplit : (10 : Nat) ^ 21 = 10 ^ (21 - (j + 1)) * 10 ^ (j + 1) := by
    rw [← pow_add]
    congr 1
    omega
  have hq : n / 10 ^ (j + 1) < 10 ^ (21 - (j + 1)) := by
    apply Nat.div_lt_of_lt_mul
    rw [Nat.mul_comm, ← hsplit]
    exact hn
  calc n / 10 ^ (j + 1) * 10 ^ (j + 1) + 10 ^ (j + 1)
      = (n / 10 ^ (j + 1) + 1) * 10 ^ (j + 1) := by ring
    _ ≤ 10 ^ (21 - (j + 1)) * 10 ^ (j + 1) := Nat.mul_le_mul_right _ hq
    _ = 10 ^ 21 := hsplit.symm

theorem shortestAux_spec (n : Nat) (hn : n < 10 ^ 21) (k : Nat) (hk : k ≤ 21) :
    sameNumber (shortestAux n k) n = true ∧ shortestAux n k ≤ 10 ^ 21 := by
  induction k with
  | zero => exact ⟨sameNumber_self n, le_of_lt hn⟩
  | succ j ih =>
    obtain ⟨hlo, hhi⟩ := candidate_le n j hn hk
    have hlo21 : n / 10 ^ (j + 1) * 10 ^ (j + 1) ≤ 10 ^ 21 := le_trans hlo (le_of_lt hn)
    unfold shortestAux
    simp only
    split_ifs with h1 h2 h3 h4
    · exact ⟨h1.1, hlo21⟩
    · exact ⟨h1.2, hhi⟩
    · exact ⟨h3, hlo21⟩
    · exact ⟨h4, hhi⟩
    · exact ih (by omega)

theorem toNumber_neg (p q : Nat) : toNumber true p q = (toNumber false p q).neg := by
  unfold toNumber
  by_cases hp : p = 0
  · simp [hp, JSNumber.neg]
  · simp only [hp, if_false]
    cases max (floorLog2Ratio p q - 52) (-1074) with
    | ofNat e =>
      simp only
      split_ifs <;> simp_all [JSNumber.neg]
    | negSucc e =>
      simp [JSNumber.neg]

theorem neg_injective (x y : JSNumber) (h : x.neg = y.neg) : x = y := by
  cases x <;> cases y <;> simp [JSNumber.neg] at h ⊢
  · exact h
  · exact h

theorem isNumber_natAbs (n : Int) (h : isNumber n) :
    toNumber false n.natAbs 1 = .finite (n.natAbs : Int) 0 := by
  unfold isNumber JSNumber.ofInt at h
  by_cases hn : n < 0
  · simp only [hn, decide_True] at h
    rw [toNumber_neg] at h
    apply neg_injective
    rw [h]
    simp only [JSNumber.neg, JSNumber.finite.injEq, and_true]
    omega
  · simp only [hn, decide_False] at h
    rw [h]
    simp only [JSNumber.finite.injEq, and_true]
    omega

theorem shortest_spec (n : Nat) (hn : n < 10 ^ 21)
    (hrep : toNumber false n 1 = .finite (n : Int) 0) :
    toNumber false (shortest n) 1 = .finite (n : Int) 0 ∧ shortest n < 10 ^ 21 := by
  have hlen := decimalDigits_length n 21 (by norm_num) hn
  obtain ⟨hsame, hle⟩ := shortestAux_spec n hn ((decimalDigits n).length - 1) (by omega)
  have hv : toNumber false (shortest n) 1 = .finite (n : Int) 0 := by
    rw [← hrep]
    exact (sameNumber_iff _ _).1 hsame
  refine ⟨hv, ?_⟩
  rcases Nat.lt_or_ge (shortest n) (10 ^ 21) with h | h
  · exact h
  · have heq : shortest n = 10 ^ 21 := le_antisymm hle h
    rw [heq] at hv
    have h21 : toNumber false (10 ^ 21) 1 = .finite (10 ^ 21 : Int) 0 := by decide
    rw [h21] at hv
    simp only [JSNumber.finite.injEq, and_true] at hv
    have : n = 10 ^ 21 := by exact_mod_cast hv.symm
    omega

theorem scan_digits (v : Nat) :
    trimStart ((decimalDigits v).map digitChar) = (decimalDigits v).map digitChar ∧
    readSign ((decimalDigits v).map digitChar) = (1, (decimalDigits v).map digitChar) ∧
    readRadix ((decimalDigits v).map digitChar) = (10, (decimalDigits v).map digitChar) ∧
    takeDigits 10 ((decimalDigits v).map digitChar) = decimalDigits v := by
  have hlt := decimalDigits_lt v
  refine ⟨?_, ?_, readRadix_digits _ hlt, takeDigits_map_digitChar _ hlt⟩
  · cases hds : decimalDigits v with
    | nil => exact absurd hds (decimalDigits_ne_nil v)
    | cons d ds =>
      have hd := digitChar_facts d (hlt d (by simp [hds]))
      simp [trimStart, List.dropWhile, hd.2.1]
  · cases hds : decimalDigits v with
    | nil => exact absurd hds (decimalDigits_ne_nil v)
    | cons d ds =>
      have hd := digitChar_facts d (hlt d (by simp [hds]))
      simp [readSign, hd.2.2.1, hd.2.2.2.1]

/-- For an integer-valued Number of magnitude below `10^21`, `parseInt` reads the number back from
the text of its template literal. -/
theorem parseInt_numberToString (n : Int) (hrep : isNumber n) (h : n.natAbs < 10 ^ 21) :
    parseInt (numberToString n) = .finite n 0 := by
  have hnat := isNumber_natAbs n hrep
  obtain ⟨hv, hvlt⟩ := shortest_spec n.natAbs h hnat
  obtain ⟨htrim, hsign, hradix, htake⟩ := scan_digits (shortest n.natAbs)
  have hne := decimalDigits_ne_nil (shortest n.natAbs)
  have hstr : natToString n.natAbs = (decimalDigits (shortest n.natAbs)).map digitChar := by
    unfold natToString
    simp only [if_pos hvlt]
  have hnum : numberToString n =
      if n < 0 then String.mk ('-' :: natToString n.natAbs)
      else String.mk (natToString n.natAbs) := by
    unfold numberToString
    have hrep' : JSNumber.ofInt n = .finite n 0 := hrep
    rw [hrep']
  rw [hnum, hstr]
  by_cases hneg : n < 0
  · have hws : isWhiteSpace '-' = false := by decide
    have hv0 : shortest n.natAbs ≠ 0 := by
      intro h0
      rw [h0] at hv
      have hz : toNumber false 0 1 = .finite 0 0 := by decide
      rw [hz] at hv
      simp only [JSNumber.finite.injEq, and_true] at hv
      omega
    simp only [hneg, if_true, parseInt, trimStart, List.dropWhile, hws, readSign, hradix, htake,
      hne, if_false, digitsValue_decimalDigits]
    have hlt0 : (-1 : Int) * (shortest n.natAbs : Int) < 0 := by omega
    have habs : ((-1 : Int) * (shortest n.natAbs : Int)).natAbs = shortest n.natAbs := by omega
    simp only [JSNumber.ofInt, hlt0, decide_True, habs]
    rw [toNumber_neg, hv]
    simp only [JSNumber.neg, JSNumber.finite.injEq, and_true]
    omega
  · simp only [hneg, if_false, parseInt, htrim, hsign, hradix, htake, hne,
      digitsValue_decimalDigits]
    have hlt0 : ¬ ((1 : Int) * (shortest n.natAbs : Int) < 0) := by omega
    have habs : ((1 : Int) * (shortest n.natAbs : Int)).natAbs = shortest n.natAbs := by omega
    simp only [JSNumber.ofInt, hlt0, decide_False, habs]
    rw [hv]
    simp only [JSNumber.finite.injEq, and_true]
    omega

theorem numberToString_ne_empty (n : Int) (hrep : isNumber n) (h : n.natAbs < 10 ^ 21) :
    numberToString n ≠ "" := by
  intro he
  have := parseInt_numberToString n hrep h
  rw [he] at this
  have hnan : parseInt "" = .nan := by decide
  rw [hnan] at this
  simp at this

theorem numberToString_injective (a b : Int) (ha : isNumber a) (hb : isNumber b)
    (hab : a.natAbs < 10 ^ 21) (hbb : b.natAbs < 10 ^ 21)
    (h : numberToString a = numberToString b) : a = b := by
  have h1 := parseInt_numberToString a ha hab
  have h2 := parseInt_numberToString b hb hbb
  rw [h, h2] at h1
  simpa using h1.symm

theorem bitLengthAux_spec (fuel : Nat) :
    ∀ n, n ≤ fuel → 0 < n →
      2 ^ (bitLengthAux fuel n - 1) ≤ n ∧ n < 2 ^ bitLengthAux fuel n ∧
        1 ≤ bitLengthAux fuel n := by
  induction fuel with
  | zero => intro n h1 h2; omega
  | succ fuel ih =>
    intro n hn hpos
    have hn0 : n ≠ 0 := by omega
    simp only [bitLengthAux, hn0, if_false]
    by_cases h1 : n / 2 = 0
    · have hz : bitLengthAux fuel (n / 2) = 0 := by
        rw [h1]
        cases fuel <;> simp [bitLengthAux]
      rw [hz]
      have : n = 1 := by omega
      subst this
      simp
    · obtain ⟨hlo, hhi, hb⟩ := ih (n / 2) (by omega) (by omega)
      refine ⟨?_, ?_, by omega⟩
      · have hpow : 2 ^ (bitLengthAux fuel (n / 2) + 1 - 1) =
            2 ^ (bitLengthAux fuel (n / 2) - 1) * 2 := by
          rw [← pow_succ]
          congr 1
          omega
        rw [hpow]
        omega
      · rw [pow_succ]
        omega

theorem roundQuotient_one (x : Nat) : roundQuotient x 1 = x := by
  simp [roundQuotient, Nat.mod_one]

theorem lowestTerms_mul_pow (m scale : Nat) : lowestTerms (m * 2 ^ scale) scale = (m, 0) := by
  induction scale with
  | zero => simp [lowestTerms]
  | succ scale ih =>
    have h2 : m * 2 ^ (scale + 1) % 2 = 0 := by
      rw [pow_succ, ← Nat.mul_assoc]
      exact Nat.mul_mod_left _ _
    have hdiv : m * 2 ^ (scale + 1) / 2 = m * 2 ^ scale := by
      rw [pow_succ, ← Nat.mul_assoc]
      exact Nat.mul_div_cancel _ (by norm_num)
    simp only [lowestTerms, h2, if_true, hdiv]
    exact ih

/-- Every natural number below `2^53` is a Number: the conversion returns it unchanged. -/
theorem toNumber_safe (n : Nat) (h : n < 2 ^ 53) : toNumber false n 1 = .finite (n : Int) 0 := by
  by_cases h0 : n = 0
  · subst h0
    decide
  · obtain ⟨hlo, hhi, hb⟩ := bitLengthAux_spec n n (le_refl n) (by omega)
    have hb1 : bitLength 1 = 1 := by decide
    have hbl : bitLength n = bitLengthAux n n := rfl
    have hle : bitLength n ≤ 53 := by
      by_contra hgt
      have : 2 ^ 53 ≤ 2 ^ (bitLength n - 1) := Nat.pow_le_pow_right (by norm_num) (by omega)
      rw [hbl] at this
      omega
    have hfl : floorLog2Ratio n 1 = ((bitLength n - 1 : Nat) : Int) := by
      unfold floorLog2Ratio
      have ht : (bitLength n : Int) - (bitLength 1 : Int) = Int.ofNat (bitLength n - 1) := by
        rw [hb1]
        simp only [Int.ofNat_eq_coe]
        omega
      simp only [ht]
      rw [hbl]
      simp [hlo]
    unfold toNumber
    simp only [h0, if_false, hfl]
    by_cases h52 : bitLength n - 1 = 52
    · have hE : max (((bitLength n - 1 : Nat) : Int) - 52) (-1074) = Int.ofNat 0 := by
        rw [h52]
        rfl
      rw [hE]
      have hlt : ¬ (2 ^ 1024 ≤ n) := by
        have : (2 : Nat) ^ 53 < 2 ^ 1024 := Nat.pow_lt_pow_right (by norm_num) (by norm_num)
        omega
      simp only [roundQuotient_one, Nat.one_mul, pow_zero, Nat.mul_one, if_neg hlt]
      simp
    · have hE : max (((bitLength n - 1 : Nat) : Int) - 52) (-1074) =
          Int.negSucc (51 - (bitLength n - 1)) := by
        rw [max_eq_left (by omega), Int.negSucc_eq]
        omega
      rw [hE]
      simp only [roundQuotient_one, lowestTerms_mul_pow]
      simp

theorem isNumber_of_safe (n : Int) (h : n.natAbs < 2 ^ 53) : isNumber n := by
  unfold isNumber JSNumber.ofInt
  have hs := toNumber_safe n.natAbs h
  by_cases hn : n < 0
  · simp only [hn, decide_True]
    rw [toNumber_neg, hs]
    simp only [JSNumber.neg, JSNumber.finite.injEq, and_true]
    omega
  · simp only [hn, decide_False]
    rw [hs]
    simp only [JSNumber.finite.injEq, and_true]
    omega

theorem findRoute_requests_of_ids (a b : Int) (han : isNumber a) (hbn : isNumber b)
    (ha : a.natAbs < 10 ^ 21) (hb : b.natAbs < 10 ^ 21)
    (outcome : FetchOutcome PathResponse) (st : DomState)
    (hsrc : st.sourceSelect = numberToString a) (hdst : st.destSelect = numberToString b) :
    requestsIssued st (findRoute outcome st) =
      if a = b then [] else [⟨"POST", "/path", .path (.finite a 0) (.finite b 0)⟩] := by
  rw [findRoute_requests, hsrc, hdst, parseInt_numberToString a han ha,
    parseInt_numberToString b hbn hb]
  by_cases hab : a = b
  · subst hab
    simp
  · have hne : numberToString a ≠ numberToString b :=
      fun h => hab (numberToString_injective a b han hbn ha hb h)
    rw [if_pos ⟨numberToString_ne_empty a han ha, numberToString_ne_empty b hbn hb, hne⟩,
      if_neg hab]

/-- C3, counterexample: the integer `10^21` is a Number, its option value is the text `1e+21`, and
with it selected as source `findRoute` sends `source: 1`, not the id. -/
theorem big_id_not_restored :
    isNumber (10 ^ 21) ∧
    optionValue ⟨10 ^ 21, "Far"⟩ = "1e+21" ∧
    optionValue ⟨2, "Near"⟩ = "2" ∧
    requestsIssued { freshPage with sourceSelect := "1e+21", destSelect := "2" }
      (findRoute .rejected { freshPage with sourceSelect := "1e+21", destSelect := "2" }) =
      [⟨"POST", "/path", .path (.finite 1 0) (.finite 2 0)⟩] ∧
    JSNumber.finite 1 0 ≠ JSNumber.finite (10 ^ 21) 0 := by
  decide

/-- C3, as amended: for junctions `s` and `d` of the list whose ids are integer-valued Numbers of
magnitude below `10^21`, `populateDropdowns` writes for each the markup whose value attribute is
the text of the id, `parseInt` reads each id back from that text, and with the two values selected
`findRoute` sends exactly one `POST /path` request with body `source: s.id, destination: d.id`
(none when the two ids are equal). -/
theorem dropdown_ids_sent (junctions : List Junction) (s d : Junction)
    (outcome : FetchOutcome PathResponse) (st : DomState)
    (hs : s ∈ junctions) (hd : d ∈ junctions)
    (hsn : isNumber s.id) (hdn : isNumber d.id)
    (hsb : s.id.natAbs < 10 ^ 21) (hdb : d.id.natAbs < 10 ^ 21)
    (hsrc : st.sourceSelect = optionValue s) (hdst : st.destSelect = optionValue d) :
    optionHtml s ∈ populateDropdowns junctions ∧
    optionHtml d ∈ populateDropdowns junctions ∧
    parseInt (optionValue s) = .finite s.id 0 ∧
    parseInt (optionValue d) = .finite d.id 0 ∧
    requestsIssued st (findRoute outcome st) =
      if s.id = d.id then [] else [⟨"POST", "/path", .path (.finite s.id 0) (.finite d.id 0)⟩] := by
  refine ⟨?_, ?_, parseInt_numberToString s.id hsn hsb, parseInt_numberToString d.id hdn hdb,
    findRoute_requests_of_ids s.id d.id hsn hdn hsb hdb outcome st hsrc hdst⟩
  · exact List.mem_cons_of_mem _ (List.mem_map_of_mem _ hs)
  · exact List.mem_cons_of_mem _ (List.mem_map_of_mem _ hd)

/-- C3, instance: the ids 1 and `2^60`, whose option value is `1152921504606847000`. -/
theorem dropdown_ids_sent_witness :
    optionHtml ⟨1, "A"⟩ ∈ populateDropdowns [⟨1, "A"⟩, ⟨2, "B"⟩, ⟨1152921504606846976, "C"⟩] ∧
    optionHtml ⟨1152921504606846976, "C"⟩ ∈
      populateDropdowns [⟨1, "A"⟩, ⟨2, "B"⟩, ⟨1152921504606846976, "C"⟩] ∧
    parseInt (optionValue ⟨1, "A"⟩) = .finite 1 0 ∧
    parseInt (optionValue ⟨1152921504606846976, "C"⟩) = .finite 1152921504606846976 0 ∧
    requestsIssued { freshPage with sourceSelect := "1", destSelect := "1152921504606847000" }
        (findRoute .notJson
          { freshPage with sourceSelect := "1", destSelect := "1152921504606847000" }) =
      if (1 : Int) = 1152921504606846976 then []
      else [⟨"POST", "/path", .path (.finite 1 0) (.finite 1152921504606846976 0)⟩] :=
  dropdown_ids_sent [⟨1, "A"⟩, ⟨2, "B"⟩, ⟨1152921504606846976, "C"⟩] ⟨1, "A"⟩
    ⟨1152921504606846976, "C"⟩ .notJson
    { freshPage with sourceSelect := "1", destSelect := "1152921504606847000" }
    (by decide) (by decide) (by decide) (by decide) (by decide) (by decide) (by decide)
    (by decide)

/-- C4, counterexample: the selected values `1` and `1.5` are different non-empty strings, so the
request is sent, and both parse to the integer 1. -/
theorem same_integer_sent :
    requestsIssued { freshPage with sourceSelect := "1", destSelect := "1.5" }
      (findRoute .rejected { freshPage with sourceSelect := "1", destSelect := "1.5" }) =
      [⟨"POST", "/path", .path (.finite 1 0) (.finite 1 0)⟩] := by
  decide

/-- C4, as amended: when the two selected values are the renderings of integer-valued Numbers `a`
and `b` of magnitude below `10^21` (the option values written for integer ids), every request sent
by `findRoute` has the body `source: a, destination: b` with `a` and `b` different. -/
theorem findRoute_distinct_ids (a b : Int) (han : isNumber a) (hbn : isNumber b)
    (ha : a.natAbs < 10 ^ 21) (hb : b.natAbs < 10 ^ 21)
    (outcome : FetchOutcome PathResponse) (st : DomState)
    (hsrc : st.sourceSelect = numberToString a) (hdst : st.destSelect = numberToString b) :
    ∀ r ∈ requestsIssued st (findRoute outcome st),
      r.body = .path (.finite a 0) (.finite b 0) ∧ a ≠ b := by
  intro r hr
  rw [findRoute_requests_of_ids a b han hbn ha hb outcome st hsrc hdst] at hr
  by_cases hab : a = b
  · simp [hab] at hr
  · simp only [if_neg hab, List.mem_singleton] at hr
    subst hr
    exact ⟨rfl, hab⟩

/-- C4, instance: the selected values `7` and `12`; a request is sent and its two integers differ.
-/
theorem findRoute_distinct_ids_witness :
    requestsIssued { freshPage with sourceSelect := "7", destSelect := "12" }
        (findRoute .rejected { freshPage with sourceSelect := "7", destSelect := "12" }) ≠ [] ∧
    ∀ r ∈ requestsIssued { freshPage with sourceSelect := "7", destSelect := "12" }
        (findRoute .rejected { freshPage with sourceSelect := "7", destSelect := "12" }),
      r.body = .path (.finite 7 0) (.finite 12 0) ∧ (7 : Int) ≠ 12 :=
  ⟨by decide, findRoute_distinct_ids 7 12 (by decide) (by decide) (by decide) (by decide)
    .rejected { freshPage with sourceSelect := "7", destSelect := "12" } (by decide)
    (by decide)⟩

/-! ## The body of a traffic update -/

/-- C6, counterexample: with an empty `trafficLevel` field the request is sent and its serialised
body has `multiplier: null`; with the selected values `A` and `B` it is sent with `from: null` and
`to: null`. -/
theorem body_fields_null :
    (requestsIssued { freshPage with trafficFrom := "1", trafficTo := "2", trafficLevel := "" }
      (updateTraffic .rejected
        { freshPage with trafficFrom := "1", trafficTo := "2", trafficLevel := "" })).map
        (fun r => jsonStringify r.body) =
      [[("from", .number 1 0), ("to", .number 2 0), ("multiplier", .null)]] ∧
    (requestsIssued { freshPage with trafficFrom := "A", trafficTo := "B", trafficLevel := "2.5" }
      (updateTraffic .rejected
        { freshPage with trafficFrom := "A", trafficTo := "B", trafficLevel := "2.5" })).map
        (fun r => jsonStringify r.body) =
      [[("from", .null), ("to", .null), ("multiplier", .number 5 1)]] := by
  decide

/-- C6, as amended: when `parseInt` reads the integers `x` and `y` from the two selected values
and `parseFloat` reads a finite number from the `trafficLevel` content, then (if `x` and `y`
differ) `updateTraffic` sends exactly one request, and every request it sends has a serialised
body with the fields `from`, `to` and `multiplier`, where `from` and `to` are the integers `x` and
`y` and `multiplier` is that number. -/
theorem updateTraffic_body (outcome : FetchOutcome TrafficResponse) (st : DomState)
    (x y numerator : Int) (scale : Nat)
    (hfrom : parseInt st.trafficFrom = .finite x 0) (hto : parseInt st.trafficTo = .finite y 0)
    (hm : parseFloat st.trafficLevel = .finite numerator scale) :
    (x ≠ y → (requestsIssued st (updateTraffic outcome st)).length = 1) ∧
    ∀ r ∈ requestsIssued st (updateTraffic outcome st),
      jsonStringify r.body =
        [("from", .number x 0), ("to", .number y 0), ("multiplier", .number numerator scale)] := by
  have hnan : parseInt "" = .nan := by decide
  constructor
  · intro hxy
    have h1 : st.trafficFrom ≠ "" := by
      intro he
      rw [he, hnan] at hfrom
      simp at hfrom
    have h2 : st.trafficTo ≠ "" := by
      intro he
      rw [he, hnan] at hto
      simp at hto
    have h3 : st.trafficFrom ≠ st.trafficTo := by
      intro he
      rw [he, hto] at hfrom
      simp only [JSNumber.finite.injEq, and_true] at hfrom
      exact hxy hfrom.symm
    rw [updateTraffic_requests, if_pos ⟨h1, h2, h3⟩]
    rfl
  · intro r hr
    rw [updateTraffic_requests] at hr
    by_cases hc : st.trafficFrom ≠ "" ∧ st.trafficTo ≠ "" ∧ st.trafficFrom ≠ st.trafficTo
    · simp only [if_pos hc, List.mem_singleton] at hr
      subst hr
      simp [jsonStringify, hfrom, hto, hm, jsonStringifyNumber]
    · simp [if_neg hc] at hr

/-- C6, instance: junctions 1 and 2 with level `2.5`; one request is sent and it carries from 1,
to 2 and the multiplier 2.5. -/
theorem updateTraffic_body_witness :
    ((1 : Int) ≠ 2 →
      (requestsIssued
        { freshPage with trafficFrom := "1", trafficTo := "2", trafficLevel := "2.5" }
        (updateTraffic .rejected
          { freshPage with trafficFrom := "1", trafficTo := "2", trafficLevel := "2.5" })).length
        = 1) ∧
    ∀ r ∈ requestsIssued
        { freshPage with trafficFrom := "1", trafficTo := "2", trafficLevel := "2.5" }
        (updateTraffic .rejected
          { freshPage with trafficFrom := "1", trafficTo := "2", trafficLevel := "2.5" }),
      jsonStringify r.body =
        [("from", .number 1 0), ("to", .number 2 0), ("multiplier", .number 5 1)] :=
  updateTraffic_body .rejected
    { freshPage with trafficFrom := "1", trafficTo := "2", trafficLevel := "2.5" } 1 2 5 1
    (by decide) (by decide) (by decide)

/-! ## The markup of a route -/

theorem countOccurrences_cons_ne (c₀ c : Char) (pt cs : List Char) (h : c ≠ c₀) :
    countOccurrences (c₀ :: pt) (c :: cs) = countOccurrences (c₀ :: pt) cs := by
  have : (c₀ == c) = false := by simpa using fun h' => h h'.symm
  simp [countOccurrences, List.isPrefixOf, this]

theorem countOccurrences_skip (c₀ : Char) (pt xs rest : List Char) (h : c₀ ∉ xs) :
    countOccurrences (c₀ :: pt) (xs ++ rest) = countOccurrences (c₀ :: pt) rest := by
  induction xs with
  | nil => rfl
  | cons x xs ih =>
    have hx : x ≠ c₀ := fun e => h (by simp [e])
    rw [List.cons_append, countOccurrences_cons_ne c₀ x pt _ hx]
    exact ih (fun hm => h (List.mem_cons_of_mem _ hm))

theorem isPrefixOf_append_self (p rest : List Char) : p.isPrefixOf (p ++ rest) = true := by
  induction p with
  | nil => simp [List.isPrefixOf]
  | cons a p ih => simp [List.isPrefixOf, ih]

theorem isPrefixOf_mismatch (p q rest : List Char)
    (h : (List.zipWith (fun a b => a == b) p q).all id = false) :
    p.isPrefixOf (q ++ rest) = false := by
  induction p generalizing q with
  | nil => simp at h
  | cons a p ih =>
    cases q with
    | nil => simp at h
    | cons b q =>
      simp only [List.zipWith_cons_cons, List.all_cons, id, Bool.and_eq_false_iff] at h
      simp only [List.cons_append, List.isPrefixOf, Bool.and_eq_false_iff]
      rcases h with h | h
      · exact Or.inl h
      · exact Or.inr (ih q h)

theorem countOccurrences_chunk (c₀ : Char) (pt body rest : List Char) (h : c₀ ∉ body) :
    countOccurrences (c₀ :: pt) (c₀ :: body ++ rest) =
      (if (c₀ :: pt).isPrefixOf (c₀ :: body ++ rest) then 1 else 0) +
        countOccurrences (c₀ :: pt) rest := by
  rw [List.cons_append]
  show (if (c₀ :: pt).isPrefixOf (c₀ :: (body ++ rest)) then 1 else 0) +
      countOccurrences (c₀ :: pt) (body ++ rest) = _
  rw [countOccurrences_skip c₀ pt body rest h]

theorem stepHtml_data (name : String) :
    (stepHtml name).data =
      ('<' :: ("div class=\"path-step\">".data ++ name.data)) ++ ('<' :: "/div>".data ++ []) := by
  simp [stepHtml, String.data_append]

theorem arrowHtml_data :
    arrowHtml.data = ('<' :: "div class=\"path-arrow\">→".data) ++ ('<' :: "/div>".data ++ []) := by
  decide

theorem closeTag_count (pt rest : List Char)
    (h : (List.zipWith (fun a b => a == b) ('<' :: pt) ('<' :: "/div>".data)).all id = false) :
    countOccurrences ('<' :: pt) ('<' :: "/div>".data ++ rest) =
      countOccurrences ('<' :: pt) rest := by
  rw [countOccurrences_chunk '<' pt "/div>".data rest (by decide)]
  have := isPrefixOf_mismatch ('<' :: pt) ('<' :: "/div>".data) rest h
  rw [List.cons_append] at this ⊢
  rw [this]
  simp

theorem stepHtml_stepCount (name : String) (rest : List Char) (h : '<' ∉ name.data) :
    countOccurrences "<div class=\"path-step\">".data ((stepHtml name).data ++ rest) =
      1 + countOccurrences "<div class=\"path-step\">".data rest := by
  have hso : "<div class=\"path-step\">".data = '<' :: "div class=\"path-step\">".data := by
    decide
  rw [stepHtml_data, hso, List.append_assoc,
    countOccurrences_chunk '<' _ _ _ (by
      intro hm
      rcases List.mem_append.1 hm with h' | h'
      · exact absurd h' (by decide)
      · exact h h')]
  have hpre : ('<' :: "div class=\"path-step\">".data).isPrefixOf
      ('<' :: ("div class=\"path-step\">".data ++ name.data) ++
        ('<' :: "/div>".data ++ [] ++ rest)) = true := by
    have := isPrefixOf_append_self ('<' :: "div class=\"path-step\">".data)
      (name.data ++ ('<' :: "/div>".data ++ [] ++ rest))
    rw [← this]
    simp [List.append_assoc]
  rw [hpre, List.append_nil, closeTag_count _ rest (by decide)]
  simp

theorem stepHtml_arrowCount (name : String) (rest : List Char) (h : '<' ∉ name.data) :
    countOccurrences "<div class=\"path-arrow\">".data ((stepHtml name).data ++ rest) =
      countOccurrences "<div class=\"path-arrow\">".data rest := by
  have hao : "<div class=\"path-arrow\">".data = '<' :: "div class=\"path-arrow\">".data := by
    decide
  rw [stepHtml_data, hao, List.append_assoc,
    countOccurrences_chunk '<' _ _ _ (by
      intro hm
      rcases List.mem_append.1 hm with h' | h'
      · exact absurd h' (by decide)
      · exact h h')]
  have hpre : ('<' :: "div class=\"path-arrow\">".data).isPrefixOf
      ('<' :: ("div class=\"path-step\">".data ++ name.data) ++
        ('<' :: "/div>".data ++ [] ++ rest)) = false := by
    have := isPrefixOf_mismatch ('<' :: "div class=\"path-arrow\">".data)
      ('<' :: "div class=\"path-step\">".data)
      (name.data ++ ('<' :: "/div>".data ++ [] ++ rest)) (by decide)
    simpa [List.append_assoc] using this
  rw [hpre, List.append_nil, closeTag_count _ rest (by decide)]
  simp

theorem arrowHtml_stepCount (rest : List Char) :
    countOccurrences "<div class=\"path-step\">".data (arrowHtml.data ++ rest) =
      countOccurrences "<div class=\"path-step\">".data rest := by
  have hso : "<div class=\"path-step\">".data = '<' :: "div class=\"path-step\">".data := by
    decide
  rw [arrowHtml_data, hso, List.append_assoc,
    countOccurrences_chunk '<' _ _ _ (by decide)]
  have hpre : ('<' :: "div class=\"path-step\">".data).isPrefixOf
      ('<' :: "div class=\"path-arrow\">→".data ++ ('<' :: "/div>".data ++ [] ++ rest)) =
      false := by
    have := isPrefixOf_mismatch ('<' :: "div class=\"path-step\">".data)
      ('<' :: "div class=\"path-arrow\">→".data)
      ('<' :: "/div>".data ++ [] ++ rest) (by decide)
    simpa [List.append_assoc] using this
  rw [hpre, List.append_nil, closeTag_count _ rest (by decide)]
  simp

theorem arrowHtml_arrowCount (rest : List Char) :
    countOccurrences "<div class=\"path-arrow\">".data (arrowHtml.data ++ rest) =
      1 + countOccurrences "<div class=\"path-arrow\">".data rest := by
  have hao : "<div class=\"path-arrow\">".data = '<' :: "div class=\"path-arrow\">".data := by
    decide
  rw [arrowHtml_data, hao, List.append_assoc,
    countOccurrences_chunk '<' _ _ _ (by decide)]
  have hpre : ('<' :: "div class=\"path-arrow\">".data).isPrefixOf
      ('<' :: "div class=\"path-arrow\">→".data ++ ('<' :: "/div>".data ++ [] ++ rest)) =
      true := by
    have := isPrefixOf_append_self ('<' :: "div class=\"path-arrow\">".data)
      ('→' :: ('<' :: "/div>".data ++ [] ++ rest))
    have h2 : '<' :: "div class=\"path-arrow\">→".data =
        '<' :: "div class=\"path-arrow\">".data ++ ['→'] := by decide
    rw [h2, ← this]
    simp [List.append_assoc]
  rw [hpre, List.append_nil, closeTag_count _ rest (by decide)]
  simp

theorem pathItems_flatten (l : List Junction) (k total : Nat) (h : total = k + l.length) :
    ((l.enumFrom k).map fun p => (pathItemHtml total p.1 p.2).data).flatten =
      ((l.map fun j => (stepHtml j.name).data).intersperse arrowHtml.data).flatten := by
  induction l generalizing k with
  | nil => rfl
  | cons j rest ih =>
    cases rest with
    | nil =>
      have hc : ¬ ((k : Int) < (total : Int) - 1) := by
        simp at h
        omega
      simp [List.enumFrom, pathItemHtml, hc]
    | cons j' rest' =>
      have hc : (k : Int) < (total : Int) - 1 := by
        simp at h
        omega
      have ih' := ih (k + 1) (by simp at h ⊢; omega)
      simp only [List.enumFrom, List.map_cons, List.flatten_cons, List.intersperse_cons₂] at ih' ⊢
      rw [ih']
      simp [pathItemHtml, hc, String.data_append]

theorem pathHtml_data (path : List Junction) :
    (pathHtml path).data =
      ((path.map fun j => (stepHtml j.name).data).intersperse arrowHtml.data).flatten := by
  unfold pathHtml
  rw [String.data_join, List.map_map]
  exact pathItems_flatten path 0 path.length (by simp)

theorem map_intersperse_data (l : List String) (sep : String) :
    (l.intersperse sep).map String.data = (l.map String.data).intersperse sep.data := by
  induction l with
  | nil => rfl
  | cons a l ih =>
    cases l with
    | nil => rfl
    | cons b l => simpa using ih

theorem pathHtml_eq (path : List Junction) :
    pathHtml path = String.join ((path.map fun j => stepHtml j.name).intersperse arrowHtml) := by
  apply String.ext
  rw [pathHtml_data, String.data_join, map_intersperse_data, List.map_map]
  rfl

theorem pathChars_counts (l : List Junction) (h : ∀ j ∈ l, '<' ∉ j.name.data) :
    countOccurrences "<div class=\"path-step\">".data
        ((l.map fun j => (stepHtml j.name).data).intersperse arrowHtml.data).flatten = l.length ∧
    countOccurrences "<div class=\"path-arrow\">".data
        ((l.map fun j => (stepHtml j.name).data).intersperse arrowHtml.data).flatten =
      l.length - 1 := by
  induction l with
  | nil => exact ⟨rfl, rfl⟩
  | cons j rest ih =>
    have hj : '<' ∉ j.name.data := h j (List.mem_cons_self _ _)
    have ih' := ih (fun x hx => h x (List.mem_cons_of_mem _ hx))
    cases rest with
    | nil =>
      simp only [List.map_cons, List.map_nil, List.intersperse_single, List.flatten_cons,
        List.flatten_nil, List.length_singleton]
      rw [stepHtml_stepCount _ _ hj, stepHtml_arrowCount _ _ hj]
      exact ⟨rfl, rfl⟩
    | cons j' rest' =>
      simp only [List.map_cons, List.intersperse_cons₂, List.flatten_cons] at ih' ⊢
      rw [stepHtml_stepCount _ _ hj, stepHtml_arrowCount _ _ hj, arrowHtml_stepCount,
        arrowHtml_arrowCount, ih'.1, ih'.2]
      simp only [List.length_cons]
      omega

theorem allJunctions_map_some (path : List Junction) :
    allJunctions (path.map some) = some path := by
  induction path with
  | nil => rfl
  | cons j rest ih => simp [allJunctions, ih]

theorem displayRoute_complete (data : PathResponse) (st : DomState) (t d : JSNumber)
    (path : List Junction) (ht : data.totalTime = some t) (hd : data.estimatedDistance = some d)
    (hp : data.path = some (path.map some)) :
    displayRoute data st = .normal ()
      { st with resultsCardDisplay := "block", totalTime := some t, totalDistance := some d,
                pathDisplay := pathHtml path } := by
  have hall := allJunctions_map_some path
  simp [displayRoute, bind, JS.bind, JS.modify, deref, JS.pure, ht, hd, hp, hall]

/-- C8, counterexample: a path of one junction whose name contains the markup of a step yields
markup with two `path-step` elements. -/
theorem markup_in_name_adds_step :
    [some (⟨1, "<div class=\"path-step\">B</div>"⟩ : Junction)].length = 1 ∧
    pathStepCount (displayRoute
      ⟨true, none, some [some ⟨1, "<div class=\"path-step\">B</div>"⟩],
        some (.finite 20 0), some (.finite 10 0)⟩ freshPage).state.pathDisplay = 2 := by
  decide

/-- C8, as amended: for a success payload with numeric `totalTime` and `estimatedDistance` whose
path is a list of junctions with names free of `<`, `displayRoute` completes and the markup it
writes is the steps in path order with one arrow between consecutive steps: exactly `n`
`path-step` elements, exactly `n - 1` `path-arrow` elements, and the empty string for an empty
path. -/
theorem displayRoute_markup (data : PathResponse) (st : DomState) (t d : JSNumber)
    (path : List Junction) (ht : data.totalTime = some t) (hd : data.estimatedDistance = some d)
    (hp : data.path = some (path.map some)) (hnames : ∀ j ∈ path, '<' ∉ j.name.data) :
    (∃ st₁, displayRoute data st = .normal () st₁ ∧
      st₁.pathDisplay =
        String.join ((path.map fun j => stepHtml j.name).intersperse arrowHtml) ∧
      pathStepCount st₁.pathDisplay = path.length ∧
      pathArrowCount st₁.pathDisplay = path.length - 1 ∧
      (path = [] → st₁.pathDisplay = "")) := by
  refine ⟨_, displayRoute_complete data st t d path ht hd hp, pathHtml_eq path, ?_, ?_, ?_⟩
  · show countOccurrences _ (pathHtml path).data = _
    rw [pathHtml_data]
    exact (pathChars_counts path hnames).1
  · show countOccurrences _ (pathHtml path).data = _
    rw [pathHtml_data]
    exact (pathChars_counts path hnames).2
  · intro he
    subst he
    rfl

/-- C8, instance: the path A, B, C. -/
theorem displayRoute_markup_witness :
    ∃ st₁, displayRoute
        ⟨true, none, some ([⟨1, "A"⟩, ⟨2, "B"⟩, ⟨3, "C"⟩].map some), some (.finite 20 0),
          some (.finite 10 0)⟩ freshPage = .normal () st₁ ∧
      st₁.pathDisplay =
        String.join (([⟨1, "A"⟩, ⟨2, "B"⟩, ⟨3, "C"⟩].map
          fun j : Junction => stepHtml j.name).intersperse arrowHtml) ∧
      pathStepCount st₁.pathDisplay = [(⟨1, "A"⟩ : Junction), ⟨2, "B"⟩, ⟨3, "C"⟩].length ∧
      pathArrowCount st₁.pathDisplay = [(⟨1, "A"⟩ : Junction), ⟨2, "B"⟩, ⟨3, "C"⟩].length - 1 ∧
      ([(⟨1, "A"⟩ : Junction), ⟨2, "B"⟩, ⟨3, "C"⟩] = [] → st₁.pathDisplay = "") :=
  displayRoute_markup _ freshPage (.finite 20 0) (.finite 10 0) [⟨1, "A"⟩, ⟨2, "B"⟩, ⟨3, "C"⟩]
    rfl rfl rfl (by decide)

/-! ## The server status indicator -/

/-- C10, failing run: after a `checkServerStatus` run answered with status 'OK' followed by one
whose `fetch` rejects, the status element carries both classes `online` and `offline`. -/
theorem status_both_classes :
    (runStatusChecks [.json (some ⟨true, "12"⟩), .rejected] freshPage).serverStatusClasses =
      ["online", "offline"] ∧
    (runStatusChecks [.json (some ⟨true, "12"⟩), .rejected] freshPage).statusText =
      "Server Offline" := by
  decide

/-! ## The routing engine: correctness of the expansion -/

theorem popMin_eq_none (q : List Candidate) : popMin q = none ↔ q = [] := by
  cases q with
  | nil => simp [popMin]
  | cons c cs =>
    simp only [popMin]
    cases popMin cs with
    | none => simp
    | some p =>
      obtain ⟨m, rest⟩ := p
      by_cases h : m.before c <;> simp [h]

theorem before_time (a b : Candidate) (h : a.before b = true) : a.time ≤ b.time := by
  simp only [Candidate.before, Bool.or_eq_true, Bool.and_eq_true, decide_eq_true_eq] at h
  rcases h with h | h
  · exact le_of_lt h
  · exact le_of_eq h.1

theorem not_before_time (a b : Candidate) (h : ¬ a.before b = true) : b.time ≤ a.time := by
  simp only [Candidate.before, Bool.or_eq_true, Bool.and_eq_true, decide_eq_true_eq] at h
  push_neg at h
  exact h.1

theorem popMin_spec (q : List Candidate) (m : Candidate) (rest : List Candidate)
    (h : popMin q = some (m, rest)) :
    (∀ e, e ∈ q ↔ e = m ∨ e ∈ rest) ∧ rest.length + 1 = q.length ∧
      ∀ e ∈ q, m.time ≤ e.time := by
  induction q generalizing m rest with
  | nil => simp [popMin] at h
  | cons c cs ih =>
    simp only [popMin] at h
    cases hp : popMin cs with
    | none =>
      rw [hp] at h
      simp only [Option.some.injEq, Prod.mk.injEq] at h
      obtain ⟨rfl, rfl⟩ := h
      have hcs : cs = [] := (popMin_eq_none cs).1 hp
      subst hcs
      simp
    | some p =>
      obtain ⟨m', rest'⟩ := p
      rw [hp] at h
      obtain ⟨hmem, hlen, hmin⟩ := ih m' rest' hp
      by_cases hb : m'.before c = true
      · simp only [hb, if_true, Option.some.injEq, Prod.mk.injEq] at h
        obtain ⟨rfl, rfl⟩ := h
        refine ⟨?_, ?_, ?_⟩
        · intro e
          simp only [List.mem_cons, hmem e]
          tauto
        · simp only [List.length_cons]
          omega
        · intro e he
          rcases List.mem_cons.1 he with rfl | he
          · exact before_time _ _ hb
          · exact hmin e he
      · simp only [hb, if_false, Option.some.injEq, Prod.mk.injEq] at h
        obtain ⟨rfl, rfl⟩ := h
        refine ⟨?_, rfl, ?_⟩
        · intro e
          simp only [List.mem_cons]
        · intro e he
          rcases List.mem_cons.1 he with rfl | he
          · exact le_refl _
          · exact le_trans (not_before_time _ _ hb) (hmin e he)

theorem chain_snoc (g : Graph) (s t : Int) (rs : List Road) (r : Road) :
    Chain g s (rs ++ [r]) t ↔ Chain g s rs r.fromId ∧ r ∈ g.roads ∧ r.toId = t := by
  induction rs generalizing s with
  | nil =>
    simp only [List.nil_append, Chain]
    constructor
    · rintro ⟨h1, h2, h3⟩
      exact ⟨h2.symm, h1, h3⟩
    · rintro ⟨h1, h2, h3⟩
      exact ⟨h2, h1.symm, h3⟩
  | cons r' rs ih =>
    show (r' ∈ g.roads ∧ r'.fromId = s ∧ Chain g r'.toId (rs ++ [r]) t) ↔
      (r' ∈ g.roads ∧ r'.fromId = s ∧ Chain g r'.toId rs r.fromId) ∧ r ∈ g.roads ∧ r.toId = t
    rw [ih r'.toId]
    tauto

theorem timeOf_snoc (rs : List Road) (r : Road) :
    timeOf (rs ++ [r]) = timeOf rs + r.effectiveTime := by
  simp [timeOf]

theorem distanceOf_snoc (rs : List Road) (r : Road) :
    distanceOf (rs ++ [r]) = distanceOf rs + r.baseDistance := by
  simp [distanceOf]

theorem isSettled_iff (settled : List Candidate) (j : Int) :
    isSettled settled j = true ↔ ∃ s ∈ settled, s.junction = j := by
  simp [isSettled]

theorem isSettled_cons (m : Candidate) (settled : List Candidate) (j : Int) :
    isSettled (m :: settled) j = (decide (m.junction = j) || isSettled settled j) := by
  simp [isSettled]

theorem frontier (g : Graph) (sourceId destId : Int) (queue settled : List Candidate)
    (hnn : ∀ r ∈ g.roads, 0 ≤ r.effectiveTime)
    (inv : SearchInv g sourceId destId queue settled) (rs : List Road) :
    ∀ t, Chain g sourceId rs t →
      isSettled settled t = true ∨
        ∃ e ∈ queue, isSettled settled e.junction = false ∧ e.time ≤ timeOf rs := by
  induction rs using List.reverseRecOn with
  | nil =>
    intro t ht
    have hts : sourceId = t := ht
    subst hts
    by_cases hs : isSettled settled sourceId = true
    · exact Or.inl hs
    · rcases inv.start with h | ⟨e, he, hej, het⟩
      · exact Or.inl h
      · refine Or.inr ⟨e, he, ?_, ?_⟩
        · rw [hej]
          simpa using hs
        · simpa [timeOf] using het
  | append_singleton rs r ih =>
    intro t ht
    obtain ⟨hch, hr, hrt⟩ := (chain_snoc g sourceId t rs r).1 ht
    have hr0 := hnn r hr
    rw [timeOf_snoc]
    rcases ih r.fromId hch with hset | ⟨e, he, hopen, het⟩
    · obtain ⟨s, hs, hsj⟩ := (isSettled_iff settled r.fromId).1 hset
      have hopt := inv.optimal s hs rs (by rw [hsj]; exact hch)
      by_cases hts : isSettled settled t = true
      · exact Or.inl hts
      · rcases inv.relaxed s hs r hr hsj.symm with h | ⟨e, he, hej, het⟩
        · rw [hrt] at h
          exact Or.inl h
        · refine Or.inr ⟨e, he, ?_, ?_⟩
          · rw [hej, hrt]
            simpa using hts
          · linarith
    · exact Or.inr ⟨e, he, hopen, by linarith⟩

theorem inv_initial (g : Graph) (sourceId destId : Int) :
    SearchInv g sourceId destId [⟨sourceId, [], 0, 0⟩] [] where
  valid := by
    intro c hc
    simp only [List.mem_singleton] at hc
    subst hc
    exact ⟨rfl, rfl, rfl⟩
  optimal := by simp
  start := Or.inr ⟨_, List.mem_singleton_self _, rfl, le_refl _⟩
  relaxed := by simp
  destOpen := rfl

theorem inv_skip (g : Graph) (sourceId destId : Int) (queue settled rest : List Candidate)
    (m : Candidate) (inv : SearchInv g sourceId destId queue settled)
    (hpop : popMin queue = some (m, rest)) (hm : isSettled settled m.junction = true) :
    SearchInv g sourceId destId rest settled := by
  obtain ⟨hmem, -, -⟩ := popMin_spec queue m rest hpop
  refine ⟨?_, inv.optimal, ?_, ?_, inv.destOpen⟩
  · intro c hc
    exact inv.valid c ((hmem c).2 (Or.inr hc))
  · rcases inv.start with h | ⟨e, he, hej, het⟩
    · exact Or.inl h
    · rcases (hmem e).1 he with rfl | he'
      · rw [hej] at hm
        exact Or.inl hm
      · exact Or.inr ⟨e, he', hej, het⟩
  · intro s hs r hr hrs
    rcases inv.relaxed s hs r hr hrs with h | ⟨e, he, hej, het⟩
    · exact Or.inl h
    · rcases (hmem e).1 he with rfl | he'
      · rw [hej] at hm
        exact Or.inl hm
      · exact Or.inr ⟨e, he', hej, het⟩

theorem mem_expand (g : Graph) (m c : Candidate) :
    c ∈ expand g m ↔ ∃ r ∈ g.roads, r.fromId = m.junction ∧
      c = ⟨r.toId, m.roads ++ [r], m.time + r.effectiveTime, m.distance + r.baseDistance⟩ := by
  simp only [expand, List.mem_map, List.mem_filter, decide_eq_true_eq]
  constructor
  · rintro ⟨r, ⟨hr, hf⟩, rfl⟩
    exact ⟨r, hr, hf, rfl⟩
  · rintro ⟨r, hr, hf, rfl⟩
    exact ⟨r, ⟨hr, hf⟩, rfl⟩

theorem inv_settle (g : Graph) (sourceId destId : Int) (queue settled rest : List Candidate)
    (m : Candidate) (hnn : ∀ r ∈ g.roads, 0 ≤ r.effectiveTime)
    (inv : SearchInv g sourceId destId queue settled)
    (hpop : popMin queue = some (m, rest)) (hm : isSettled settled m.junction = false)
    (hmd : m.junction ≠ destId) :
    SearchInv g sourceId destId (rest ++ expand g m) (m :: settled) := by
  obtain ⟨hmem, -, hmin⟩ := popMin_spec queue m rest hpop
  have hmq : m ∈ queue := (hmem m).2 (Or.inl rfl)
  obtain ⟨hmch, hmt, hmdist⟩ := inv.valid m hmq
  refine ⟨?_, ?_, ?_, ?_, ?_⟩
  · intro c hc
    rcases List.mem_append.1 hc with hc | hc
    · exact inv.valid c ((hmem c).2 (Or.inr hc))
    · obtain ⟨r, hr, hf, rfl⟩ := (mem_expand g m c).1 hc
      refine ⟨?_, ?_, ?_⟩
      · exact (chain_snoc g sourceId r.toId m.roads r).2 ⟨by rw [hf]; exact hmch, hr, rfl⟩
      · show m.time + r.effectiveTime = timeOf (m.roads ++ [r])
        rw [timeOf_snoc, hmt]
      · show m.distance + r.baseDistance = distanceOf (m.roads ++ [r])
        rw [distanceOf_snoc, hmdist]
  · intro s hs rs hch
    rcases List.mem_cons.1 hs with rfl | hs
    · rcases frontier g sourceId destId queue settled hnn inv rs _ hch with h | ⟨e, he, -, het⟩
      · rw [hm] at h
        exact absurd h (by simp)
      · exact le_trans (hmin e he) het
    · exact inv.optimal s hs rs hch
  · rcases inv.start with h | ⟨e, he, hej, het⟩
    · left
      rw [isSettled_cons, h]
      simp
    · rcases (hmem e).1 he with rfl | he'
      · left
        rw [isSettled_cons]
        simp [hej]
      · exact Or.inr ⟨e, List.mem_append_left _ he', hej, het⟩
  · intro s hs r hr hrs
    rcases List.mem_cons.1 hs with rfl | hs
    · right
      refine ⟨⟨r.toId, s.roads ++ [r], s.time + r.effectiveTime, s.distance + r.baseDistance⟩,
        List.mem_append_right _ ((mem_expand g s _).2 ⟨r, hr, hrs, rfl⟩), rfl, le_refl _⟩
    · rcases inv.relaxed s hs r hr hrs with h | ⟨e, he, hej, het⟩
      · left
        rw [isSettled_cons, h]
        simp
      · rcases (hmem e).1 he with rfl | he'
        · left
          rw [isSettled_cons]
          simp [hej]
        · exact Or.inr ⟨e, List.mem_append_left _ he', hej, het⟩
  · rw [isSettled_cons, inv.destOpen]
    simpa using hmd

theorem filter_split (roads : List Road) (settled : List Candidate) (m : Candidate)
    (hm : isSettled settled m.junction = false) :
    (roads.filter fun r => !isSettled settled r.fromId).length =
      (roads.filter fun r => !isSettled (m :: settled) r.fromId).length +
        (roads.filter fun r => r.fromId = m.junction).length := by
  induction roads with
  | nil => rfl
  | cons r roads ih =>
    have hB := isSettled_cons m settled r.fromId
    by_cases h1 : r.fromId = m.junction
    · have hA : (!isSettled settled r.fromId) = true := by rw [h1, hm]; rfl
      have hB' : ¬ ((!isSettled (m :: settled) r.fromId) = true) := by
        rw [hB]
        simp [h1]
      have hC : decide (r.fromId = m.junction) = true := by simp [h1]
      rw [(@List.filter_cons_of_pos Road (fun r => !isSettled settled r.fromId) r roads hA),
        (@List.filter_cons_of_neg Road (fun r => !isSettled (m :: settled) r.fromId) r roads hB'),
        (@List.filter_cons_of_pos Road (fun r => decide (r.fromId = m.junction)) r roads hC)]
      simp only [List.length_cons]
      omega
    · have hC : ¬ (decide (r.fromId = m.junction) = true) := by simp [h1]
      have h2 : ¬ m.junction = r.fromId := fun h => h1 h.symm
      by_cases h3 : isSettled settled r.fromId = true
      · have hA : ¬ ((!isSettled settled r.fromId) = true) := by simp [h3]
        have hB' : ¬ ((!isSettled (m :: settled) r.fromId) = true) := by
          rw [hB]
          simp [h3]
        rw [(@List.filter_cons_of_neg Road (fun r => !isSettled settled r.fromId) r roads hA),
          (@List.filter_cons_of_neg Road (fun r => !isSettled (m :: settled) r.fromId) r roads hB'),
          (@List.filter_cons_of_neg Road (fun r => decide (r.fromId = m.junction)) r roads hC)]
        exact ih
      · have hA : (!isSettled settled r.fromId) = true := by simpa using h3
        have hB' : (!isSettled (m :: settled) r.fromId) = true := by
          rw [hB]
          simpa [h2] using h3
        rw [(@List.filter_cons_of_pos Road (fun r => !isSettled settled r.fromId) r roads hA),
          (@List.filter_cons_of_pos Road (fun r => !isSettled (m :: settled) r.fromId) r roads hB'),
          (@List.filter_cons_of_neg Road (fun r => decide (r.fromId = m.junction)) r roads hC)]
        simp only [List.length_cons]
        omega

theorem workLeft_settle (g : Graph) (queue settled rest : List Candidate) (m : Candidate)
    (hpop : popMin queue = some (m, rest)) (hm : isSettled settled m.junction = false) :
    workLeft g (rest ++ expand g m) (m :: settled) + 1 = workLeft g queue settled := by
  obtain ⟨-, hlen, -⟩ := popMin_spec queue m rest hpop
  have hs := filter_split g.roads settled m hm
  simp only [workLeft, List.length_append, expand, List.length_map]
  omega

theorem workLeft_skip (g : Graph) (queue settled rest : List Candidate) (m : Candidate)
    (hpop : popMin queue = some (m, rest)) :
    workLeft g rest settled + 1 = workLeft g queue settled := by
  obtain ⟨-, hlen, -⟩ := popMin_spec queue m rest hpop
  simp only [workLeft]
  omega

theorem search_found (g : Graph) (sourceId destId : Int)
    (hnn : ∀ r ∈ g.roads, 0 ≤ r.effectiveTime) (hreach : ∃ rs, Chain g sourceId rs destId)
    (fuel : Nat) : ∀ (queue settled : List Candidate),
    SearchInv g sourceId destId queue settled → workLeft g queue settled < fuel →
    ∃ c, search g destId fuel queue settled = .found c ∧ c.junction = destId ∧
      Chain g sourceId c.roads destId ∧ c.time = timeOf c.roads ∧
      c.distance = distanceOf c.roads ∧
      ∀ rs, Chain g sourceId rs destId → c.time ≤ timeOf rs := by
  induction fuel with
  | zero => intro queue settled _ h; omega
  | succ fuel ih =>
    intro queue settled inv hfuel
    obtain ⟨rs₀, hrs₀⟩ := hreach
    cases hpop : popMin queue with
    | none =>
      have hq : queue = [] := (popMin_eq_none queue).1 hpop
      rcases frontier g sourceId destId queue settled hnn inv rs₀ destId hrs₀ with
        h | ⟨e, he, -, -⟩
      · rw [inv.destOpen] at h
        exact absurd h (by simp)
      · rw [hq] at he
        simp at he
    | some p =>
      obtain ⟨m, rest⟩ := p
      obtain ⟨hmem, hlen, hmin⟩ := popMin_spec queue m rest hpop
      by_cases hset : isSettled settled m.junction = true
      · have hs : search g destId (fuel + 1) queue settled = search g destId fuel rest settled := by
          simp only [search, hpop, hset, if_true]
        rw [hs]
        exact ih rest settled (inv_skip g sourceId destId queue settled rest m inv hpop hset)
          (by have := workLeft_skip g queue settled rest m hpop; omega)
      · have hset' : isSettled settled m.junction = false := by simpa using hset
        by_cases hmd : m.junction = destId
        · have hs : search g destId (fuel + 1) queue settled = .found m := by
            simp only [search, hpop]
            rw [if_neg hset, if_pos hmd]
          have hmq : m ∈ queue := (hmem m).2 (Or.inl rfl)
          obtain ⟨hch, ht, hd⟩ := inv.valid m hmq
          refine ⟨m, hs, hmd, by rw [← hmd]; exact hch, ht, hd, ?_⟩
          intro rs hrs
          rcases frontier g sourceId destId queue settled hnn inv rs destId hrs with
            h | ⟨e, he, -, het⟩
          · rw [inv.destOpen] at h
            exact absurd h (by simp)
          · exact le_trans (hmin e he) het
        · have hs : search g destId (fuel + 1) queue settled =
              search g destId fuel (rest ++ expand g m) (m :: settled) := by
            simp only [search, hpop]
            rw [if_neg hset, if_neg hmd]
          rw [hs]
          exact ih _ _ (inv_settle g sourceId destId queue settled rest m hnn inv hpop hset' hmd)
            (by have := workLeft_settle g queue settled rest m hpop hset'; omega)

theorem junctionsOf_getLast (g : Graph) (rs : List Road) :
    ∀ s t, Chain g s rs t → (junctionsOf s rs).getLast? = some t := by
  induction rs with
  | nil =>
    intro s t h
    have hst : s = t := h
    simp [junctionsOf, hst]
  | cons r rs ih =>
    intro s t h
    have h' := ih r.toId t h.2.2
    simpa [junctionsOf, List.getLast?_cons_cons] using h'

theorem workLeft_initial (g : Graph) (c : Candidate) : workLeft g [c] [] = g.roads.length + 1 := by
  simp [workLeft, isSettled]
  omega

theorem valid_nonneg (g : Graph) (minMultiplier maxMultiplier : ℚ)
    (hv : g.Valid minMultiplier maxMultiplier) (hlo : 0 ≤ minMultiplier) :
    ∀ r ∈ g.roads, 0 ≤ r.effectiveTime := by
  intro r hr
  obtain ⟨ht, -, hm, -⟩ := hv r hr
  exact mul_nonneg (le_of_lt ht) (le_trans hlo hm)

theorem findShortestPath_general (g : Graph) (minMultiplier maxMultiplier : ℚ)
    (sourceId destId : Int) (hv : g.Valid minMultiplier maxMultiplier) (hlo : 0 ≤ minMultiplier)
    (hs : g.hasJunction sourceId = true) (hd : g.hasJunction destId = true)
    (hne : sourceId ≠ destId) (hreach : ∃ rs, Chain g sourceId rs destId) :
    ∃ result rs, findShortestPath g sourceId destId = .ok result ∧
      Chain g sourceId rs destId ∧ result.path = junctionsOf sourceId rs ∧
      result.path.head? = some sourceId ∧ result.path.getLast? = some destId ∧
      result.totalTime = timeOf rs ∧ result.totalDistance = distanceOf rs ∧
      ∀ rs', Chain g sourceId rs' destId → result.totalTime ≤ timeOf rs' := by
  obtain ⟨c, hsearch, -, hch, ht, hdist, hmin⟩ :=
    search_found g sourceId destId (valid_nonneg g minMultiplier maxMultiplier hv hlo) hreach
      (g.roads.length + 2) [⟨sourceId, [], 0, 0⟩] [] (inv_initial g sourceId destId)
      (by rw [workLeft_initial]; omega)
  refine ⟨⟨junctionsOf sourceId c.roads, c.time, c.distance⟩, c.roads, ?_, hch, rfl, rfl,
    junctionsOf_getLast g c.roads sourceId destId hch, ht, hdist, hmin⟩
  simp [findShortestPath, hs, hd, hne, hsearch]

/-- C7: on every valid graph snapshot (non-negative multiplier bounds), for distinct existing
junctions with the destination reachable, `findShortestPath` returns a route along roads of the
graph that starts at the source and ends at the destination, whose total time is the sum of the
effective times of its roads (and total distance the sum of their base distances) and is minimal
among all routes from source to destination; on the 3-junction scenario it returns [1, 2, 3] with
total time 20 and total distance 10. -/
theorem findShortestPath_correct :
    (∀ (g : Graph) (minMultiplier maxMultiplier : ℚ) (sourceId destId : Int),
      g.Valid minMultiplier maxMultiplier → 0 ≤ minMultiplier →
      g.hasJunction sourceId = true → g.hasJunction destId = true → sourceId ≠ destId →
      (∃ rs, Chain g sourceId rs destId) →
      ∃ result rs, findShortestPath g sourceId destId = .ok result ∧
        Chain g sourceId rs destId ∧ result.path = junctionsOf sourceId rs ∧
        result.path.head? = some sourceId ∧ result.path.getLast? = some destId ∧
        result.totalTime = timeOf rs ∧ result.totalDistance = distanceOf rs ∧
        ∀ rs', Chain g sourceId rs' destId → result.totalTime ≤ timeOf rs') ∧
    findShortestPath scenario 1 3 = .ok ⟨[1, 2, 3], 20, 10⟩ := by
  refine ⟨findShortestPath_general, ?_⟩
  norm_num [findShortestPath, scenario, Graph.hasJunction, search, popMin, isSettled, expand,
    Candidate.before, Road.effectiveTime, junctionsOf]

/-- C7, instance: the general statement on the 3-junction scenario with bounds [0.1, 5]. -/
theorem findShortestPath_correct_witness :
    ∃ result rs, findShortestPath scenario 1 3 = .ok result ∧
      Chain scenario 1 rs 3 ∧ result.path = junctionsOf 1 rs ∧
      result.path.head? = some 1 ∧ result.path.getLast? = some 3 ∧
      result.totalTime = timeOf rs ∧ result.totalDistance = distanceOf rs ∧
      ∀ rs', Chain scenario 1 rs' 3 → result.totalTime ≤ timeOf rs' :=
  findShortestPath_correct.1 scenario (1 / 10) 5 1 3
    (by
      intro r hr
      simp only [scenario, List.mem_cons, List.mem_singleton, List.not_mem_nil, or_false] at hr
      rcases hr with rfl | rfl | rfl <;> norm_num [Graph.hasJunction, scenario])
    (by norm_num) (by decide) (by decide) (by decide)
    ⟨[⟨1, 2, 10, 5, 1⟩, ⟨2, 3, 10, 5, 1⟩], by simp [Chain, scenario]⟩

end SmartTraffic
